import Mathlib

/-!
Verification development for the `fraudforge` synthetic transaction data
generator.  Python code is shallowly embedded in Lean 4: pure functions become
Lean functions, stateful scenario objects become explicit state passing,
floating point numbers are modelled as exact rationals (`ℚ`), numpy random
streams are modelled as explicit input parameters (lists of naturals or
rationals) that the theorems quantify over, and fallible code (code that can
raise) returns `Except String`.

Source files embedded here:
  * `src/fraudforge/config.py` (`_normalize_dist`, `DataQualityConfig._validate_dist`)
  * `src/fraudforge/scenarios/base.py` (`ScenarioTargets`, `BaseScenario`)
  * `src/fraudforge/scenarios/baseline.py`, `causal_collider.py`, `causal_simpson.py`
  * `src/fraudforge/dq/injectors.py` (`DefaultDirtyInjector`)
  * `src/fraudforge/metadata.py` (`MetadataCollector`)
  * `src/fraudforge/generator.py` (`TransactionGenerator.run` chunk loop)
-/

namespace FraudForge

/-! ## Distribution normalization (`config._normalize_dist`) -/

/-- Sum of the weight values of a distribution mapping
(`float(sum(dist.values()))` in `_normalize_dist`). -/
def distTotal {α : Type} (dist : List (α × ℚ)) : ℚ :=
  (dist.map Prod.snd).sum

/-- Embedding of `config._normalize_dist`: raises `ConfigurationError` when the
weight total is not positive, otherwise divides every weight by the total. -/
def normalizeDist {α : Type} (dist : List (α × ℚ)) : Except String (List (α × ℚ)) :=
  let total := distTotal dist
  if total ≤ 0 then .error "Distribution total must be positive"
  else .ok (dist.map (fun kv => (kv.1, kv.2 / total)))

theorem normalizeDist_pos_ok {α : Type} (dist : List (α × ℚ)) (h : 0 < distTotal dist) :
    normalizeDist dist = .ok (dist.map (fun kv => (kv.1, kv.2 / distTotal dist))) := by
  simp [normalizeDist, not_le.mpr h]

theorem distTotal_normalized {α : Type} (dist : List (α × ℚ)) (h : 0 < distTotal dist) :
    distTotal (dist.map (fun kv => (kv.1, kv.2 / distTotal dist))) = 1 := by
  have hne : distTotal dist ≠ 0 := ne_of_gt h
  unfold distTotal at hne h ⊢
  rw [List.map_map]
  have hfun : (Prod.snd ∘ fun kv : α × ℚ => (kv.1, kv.2 / (dist.map Prod.snd).sum))
      = fun kv : α × ℚ => kv.2 * ((dist.map Prod.snd).sum)⁻¹ := by
    funext kv
    simp [div_eq_mul_inv]
  rw [hfun, List.sum_map_mul_right]
  exact mul_inv_cancel₀ hne

/-- C8: for every weight mapping with positive total, `_normalize_dist` returns a
mapping over the same keys whose values sum to `1` (hence within `1e-9` of `1`),
each value proportional to its original weight; for a zero- or negative-sum
mapping it raises `ConfigurationError` (the error value), which happens at
configuration time because `_normalize_dist` is invoked from the pydantic
validators of `GeneratorConfig` during construction, before generation. -/
theorem claim_C8_normalize_dist {α : Type} (dist : List (α × ℚ)) :
    (0 < distTotal dist →
      ∃ out, normalizeDist dist = .ok out ∧
        out.map Prod.fst = dist.map Prod.fst ∧
        |distTotal out - 1| ≤ 1 / 1000000000 ∧
        ∀ i : Fin dist.length, ∃ hi : i.val < out.length,
          (out.get ⟨i.val, hi⟩).1 = (dist.get i).1 ∧
          (out.get ⟨i.val, hi⟩).2 * distTotal dist = (dist.get i).2) ∧
    (distTotal dist ≤ 0 →
      normalizeDist dist = .error "Distribution total must be positive") := by
  constructor
  · intro h
    refine ⟨dist.map (fun kv => (kv.1, kv.2 / distTotal dist)),
      normalizeDist_pos_ok dist h, ?_, ?_, ?_⟩
    · simp
    · rw [distTotal_normalized dist h]
      norm_num
    · intro i
      have hi : i.val < (dist.map (fun kv => (kv.1, kv.2 / distTotal dist))).length := by
        simpa using i.isLt
      refine ⟨hi, ?_, ?_⟩
      · simp [List.get_map]
      · have hne : distTotal dist ≠ 0 := ne_of_gt h
        simp [List.get_map, div_mul_cancel₀ _ hne]
  · intro h
    simp [normalizeDist, h]

/-- Witness for C8 at concrete inputs. -/
theorem claim_C8_normalize_dist_witness :
    0 < distTotal [((0 : Nat), (2 : ℚ)), (1, 6)] ∧
    distTotal [((0 : Nat), (0 : ℚ)), (1, -1)] ≤ 0 ∧
    (∃ out, normalizeDist [((0 : Nat), (2 : ℚ)), (1, 6)] = .ok out ∧
      out.map Prod.fst = [0, 1] ∧ |distTotal out - 1| ≤ 1 / 1000000000) ∧
    normalizeDist [((0 : Nat), (0 : ℚ)), (1, -1)] =
      .error "Distribution total must be positive" := by
  have hpos : 0 < distTotal [((0 : Nat), (2 : ℚ)), (1, 6)] := by norm_num [distTotal]
  have hneg : distTotal [((0 : Nat), (0 : ℚ)), (1, -1)] ≤ 0 := by norm_num [distTotal]
  obtain ⟨out, hok, hkeys, hsum, _⟩ :=
    (claim_C8_normalize_dist [((0 : Nat), (2 : ℚ)), (1, 6)]).1 hpos
  have herr := (claim_C8_normalize_dist [((0 : Nat), (0 : ℚ)), (1, -1)]).2 hneg
  exact ⟨hpos, hneg, ⟨out, hok, by simpa using hkeys, hsum⟩, herr⟩

/-! ## Data quality configuration (`config.DataQualityConfig`) -/

/-- The `DataQualityIssue` enum from `config.py`. -/
inductive DataQualityIssue
  | MISSING_VALUES
  | TYPOS_NOISE
  | OUTLIER_AMOUNT
  | DUPLICATE_ROWS
  | SWAP_FIELDS
  | DATE_JITTER
deriving DecidableEq, Repr

/-- `.value` of each enum member. -/
def DataQualityIssue.value : DataQualityIssue → String
  | .MISSING_VALUES => "MISSING_VALUES"
  | .TYPOS_NOISE => "TYPOS_NOISE"
  | .OUTLIER_AMOUNT => "OUTLIER_AMOUNT"
  | .DUPLICATE_ROWS => "DUPLICATE_ROWS"
  | .SWAP_FIELDS => "SWAP_FIELDS"
  | .DATE_JITTER => "DATE_JITTER"

/-- `_DEFAULT_ISSUE_DISTRIBUTION` from `config.py`. -/
def defaultIssueDistribution : List (DataQualityIssue × ℚ) :=
  [(.MISSING_VALUES, 1), (.TYPOS_NOISE, 1), (.OUTLIER_AMOUNT, 1),
   (.DUPLICATE_ROWS, 1), (.SWAP_FIELDS, 1), (.DATE_JITTER, 1)]

/-- Field values of `DataQualityConfig` (the second, effective class definition in
`config.py`; an earlier definition of the same name is shadowed by it). -/
structure DataQualityConfig where
  enabled : Bool := false
  row_dirty_rate : ℚ := 0
  issue_dist : List (DataQualityIssue × ℚ) := []
  max_issues_per_row : Nat := 2
  missing_cols_whitelist : Option (List String) := none
  typos_cols_whitelist : Option (List String) := none

/-- Embedding of `DataQualityConfig._validate_dist` (the model validator that
pydantic runs at construction).  Mirrors the effective control flow: a `source`
mapping is normalized first (its result unused unless an error is raised), then
when `enabled` is set an empty `issue_dist` raises `ConfigurationError` and a
non-empty one is normalized in place.  The Python code round-trips the keys
through their string `.value`; that round trip is the identity on the enum. -/
def validateDataQuality (c : DataQualityConfig) : Except String DataQualityConfig := do
  let source : Option (List (DataQualityIssue × ℚ)) :=
    if c.enabled then
      some (if c.issue_dist.isEmpty then defaultIssueDistribution else c.issue_dist)
    else if c.issue_dist.isEmpty then none else some c.issue_dist
  match source with
  | some s => do
      let _ ← normalizeDist s
      pure ()
  | none => pure ()
  if c.enabled then
    if c.issue_dist.isEmpty then
      .error "issue_dist must be provided when dirty data is enabled"
    else do
      let normalized ← normalizeDist c.issue_dist
      .ok { c with issue_dist := normalized }
  else .ok c

/-- C4: the run configured with `records=60, seed=42, data_quality.enabled=true,
row_dirty_rate=0.6` and an unspecified `issue_dist` is *rejected* at
configuration time: `_validate_dist` raises
`ConfigurationError("issue_dist must be provided when dirty data is enabled")`,
so no rows are ever generated.  This contradicts the class's own (shadowed)
docstring, which states that an unspecified `issue_dist` defaults to a uniform
distribution over all supported issue types, and contradicts the dead `source`
branch computing exactly that default. -/
theorem claim_C4_dirty_config_rejected :
    validateDataQuality { enabled := true, row_dirty_rate := 3/5 } =
      .error "issue_dist must be provided when dirty data is enabled" := by
  have h6 : ¬ distTotal defaultIssueDistribution ≤ 0 := by
    norm_num [distTotal, defaultIssueDistribution]
  simp [validateDataQuality, normalizeDist, h6, Bind.bind, Except.bind, Pure.pure, Except.pure]

/-! ## Metadata aggregation (`metadata.MetadataCollector`) -/

/-- Accumulator fields of `MetadataCollector` that `finalize` reads (per-category
fraud breakdowns are elided: `finalize` copies them verbatim). -/
structure MetadataState where
  total_records : Nat
  fraud_total : Nat
  non_fraud : Nat
  causal_counts : List (String × Nat)
  dirty_rows : Nat
  dirty_counts : List (String × Nat)

/-- `MetadataCollector.__init__`: all counters start at zero. -/
def initMetadataState : MetadataState :=
  { total_records := 0, fraud_total := 0, non_fraud := 0,
    causal_counts := [], dirty_rows := 0, dirty_counts := [] }

/-- The count/share fields of the structure returned by
`MetadataCollector.finalize`. -/
structure FinalCounts where
  total_records : Nat
  non_fraud : Nat
  fraud_total : Nat
  causal_fraud_count : Nat
  causal_fraud_share : ℚ
  dirty_rows : Nat
  dirty_share : ℚ

namespace MetadataCollector

/-- Embedding of `MetadataCollector.finalize`: `total = self._counts["total_records"] or 1`
(Python `or` turns a zero count into `1`), and that same `total` is both the
share divisor and the reported `counts.total_records`. -/
def finalize (s : MetadataState) : FinalCounts :=
  let total : Nat := if s.total_records = 0 then 1 else s.total_records
  let causalTotal := (s.causal_counts.map Prod.snd).sum
  { total_records := total
    non_fraud := s.non_fraud
    fraud_total := s.fraud_total
    causal_fraud_count := causalTotal
    causal_fraud_share := (causalTotal : ℚ) / (total : ℚ)
    dirty_rows := s.dirty_rows
    dirty_share := (s.dirty_rows : ℚ) / (total : ℚ) }

end MetadataCollector

/-- C6 counterexample: with zero rows aggregated the actual accumulated count is
`0`, yet the `counts.total_records` field of the finalized metadata is `1`
(the `or 1` guard value), not the accumulated count. -/
theorem claim_C6_counterexample :
    initMetadataState.total_records = 0 ∧
    (MetadataCollector.finalize initMetadataState).total_records = 1 := by
  constructor <;> rfl

/-- C6 (amended): `finalize` is total on the zero state; with no rows aggregated
the share divisor is `1` so `causal_fraud_share` and `dirty_share` are `0` (not
undefined), but the reported `counts.total_records` is `1` (the guard divisor),
not the accumulated count `0`; whenever at least one row was aggregated the
reported `counts.total_records` equals the accumulated count. -/
theorem claim_C6_finalize_guard :
    (MetadataCollector.finalize initMetadataState).causal_fraud_share = 0 ∧
    (MetadataCollector.finalize initMetadataState).dirty_share = 0 ∧
    (MetadataCollector.finalize initMetadataState).total_records = 1 ∧
    ∀ s : MetadataState, 0 < s.total_records →
      (MetadataCollector.finalize s).total_records = s.total_records := by
  refine ⟨by simp [MetadataCollector.finalize, initMetadataState],
    by simp [MetadataCollector.finalize, initMetadataState], rfl, ?_⟩
  intro s hs
  simp [MetadataCollector.finalize, Nat.pos_iff_ne_zero.mp hs]

/-- Witness for C6's amended theorem at a concrete positive state. -/
theorem claim_C6_finalize_guard_witness :
    0 < (5 : Nat) ∧
    (MetadataCollector.finalize
      { total_records := 5, fraud_total := 1, non_fraud := 4,
        causal_counts := [], dirty_rows := 0, dirty_counts := [] }).total_records = 5 := by
  refine ⟨by decide, ?_⟩
  exact claim_C6_finalize_guard.2.2.2 _ (by decide)

/-! ## Orchestrator chunk loop (`generator.TransactionGenerator.run`) -/

/-- Python's built-in `round` on exact rationals: round half to even. -/
def pyRound (x : ℚ) : ℤ :=
  if x - (⌊x⌋ : ℚ) < 1/2 then ⌊x⌋
  else if 1/2 < x - (⌊x⌋ : ℚ) then ⌊x⌋ + 1
  else if ⌊x⌋ % 2 = 0 then ⌊x⌋ else ⌊x⌋ + 1

/-- One pass of the `for entry in scenario_entries` loop inside a chunk of
`TransactionGenerator.run`: `rems` holds the scenarios' `remaining` row counts
in priority order and `produced` the rows already produced this chunk.  Each
entry with rows left takes `min(entry.remaining, chunk_size - produced)`; the
loop breaks once `produced ≥ chunk_size` and skips exhausted entries.  Every
scenario's `generate(take, ...)` returns exactly `take` rows (its base frame is
built from `size=take` draws), so `produced` advances by `take`.  Returns the
updated remaining counts and the final `produced`. -/
def chunkAssign (chunkSize : Nat) : List Nat → Nat → List Nat × Nat
  | [], produced => ([], produced)
  | r :: rest, produced =>
    if chunkSize ≤ produced then (r :: rest, produced)
    else if r = 0 then
      let out := chunkAssign chunkSize rest produced
      (r :: out.1, out.2)
    else
      let take := min r (chunkSize - produced)
      let out := chunkAssign chunkSize rest (produced + take)
      ((r - take) :: out.1, out.2)

theorem chunkAssign_sum (chunkSize : Nat) (rems : List Nat) (p : Nat) :
    (chunkAssign chunkSize rems p).2 + (chunkAssign chunkSize rems p).1.sum
      = p + rems.sum := by
  induction rems generalizing p with
  | nil => simp [chunkAssign]
  | cons r rest ih =>
    simp only [chunkAssign]
    split
    · simp
    · split
      · have := ih p
        simp only [List.sum_cons]
        omega
      · have := ih (p + min r (chunkSize - p))
        simp only [List.sum_cons]
        omega

theorem chunkAssign_le (chunkSize : Nat) (rems : List Nat) (p : Nat) :
    p ≤ (chunkAssign chunkSize rems p).2 := by
  induction rems generalizing p with
  | nil => simp [chunkAssign]
  | cons r rest ih =>
    simp only [chunkAssign]
    split
    · simp
    · split
      · exact ih p
      · have := ih (p + min r (chunkSize - p))
        omega

theorem chunkAssign_le_chunk (chunkSize : Nat) (rems : List Nat) (p : Nat)
    (h : p ≤ chunkSize) : (chunkAssign chunkSize rems p).2 ≤ chunkSize := by
  induction rems generalizing p with
  | nil => simpa [chunkAssign]
  | cons r rest ih =>
    simp only [chunkAssign]
    split
    · simpa
    · split
      · exact ih p h
      · exact ih (p + min r (chunkSize - p)) (by omega)

theorem chunkAssign_stall (chunkSize : Nat) (rems : List Nat) (p : Nat)
    (hp : p < chunkSize) (h : (chunkAssign chunkSize rems p).2 = p) :
    rems.sum = 0 := by
  induction rems generalizing p with
  | nil => simp
  | cons r rest ih =>
    simp only [chunkAssign] at h
    rw [if_neg (by omega)] at h
    by_cases hr : r = 0
    · rw [if_pos hr] at h
      simpa [hr] using ih p hp h
    · rw [if_neg hr] at h
      have hmono := chunkAssign_le chunkSize rest (p + min r (chunkSize - p))
      omega

/-- The `while generated < total_records` loop of `TransactionGenerator.run`,
tracking `generated` and the per-scenario remaining row counts.  `metaTotal` is
the running `total_records` count that `MetadataCollector.update` accumulates
(one `+= chunk_df.shape[0]` per chunk).  The loop stops when `generated`
reaches `total` or when a chunk produces no rows (no scenario has rows left);
it is a total function, so the embedded loop terminates on every input. -/
def runLoop (chunkCfg total : Nat) (rems : List Nat) (generated metaTotal : Nat) :
    Nat × Nat :=
  if hlt : generated < total then
    let chunkSize := min chunkCfg (total - generated)
    let out := chunkAssign chunkSize rems 0
    if hp : out.2 = 0 then (generated, metaTotal)
    else runLoop chunkCfg total out.1 (generated + out.2) (metaTotal + out.2)
  else (generated, metaTotal)
termination_by total - generated
decreasing_by
  have h2 : 0 < out.2 := Nat.pos_of_ne_zero hp
  unfold out chunkSize at h2
  simp_wf
  omega

theorem runLoop_spec (chunkCfg total : Nat) (hc : 1 ≤ chunkCfg) :
    ∀ k rems generated metaTotal, generated ≤ total → total - generated ≤ k →
      runLoop chunkCfg total rems generated metaTotal =
        (min total (generated + rems.sum),
         metaTotal + (min total (generated + rems.sum) - generated)) := by
  intro k
  induction k with
  | zero =>
    intro rems generated metaTotal hg hk
    have : generated = total := by omega
    rw [runLoop.eq_def]
    simp [this]
  | succ k ih =>
    intro rems generated metaTotal hg hk
    rw [runLoop.eq_def]
    by_cases hlt : generated < total
    · rw [dif_pos hlt]
      have hcs : 1 ≤ min chunkCfg (total - generated) := by omega
      set cs := min chunkCfg (total - generated) with hcsdef
      set out := chunkAssign cs rems 0 with houtdef
      have hsum : out.2 + out.1.sum = rems.sum := by
        simpa using chunkAssign_sum cs rems 0
      by_cases hzero : out.2 = 0
      · rw [dif_pos hzero]
        have : rems.sum = 0 := chunkAssign_stall cs rems 0 (by omega) hzero
        simp [this]
        omega
      · rw [dif_neg hzero]
        have hle : out.2 ≤ cs := chunkAssign_le_chunk cs rems 0 (by omega)
        have h1 : generated + out.2 ≤ total := by omega
        have h2 : total - (generated + out.2) ≤ k := by omega
        rw [ih out.1 (generated + out.2) (metaTotal + out.2) h1 h2]
        have hmin : generated + out.2 + out.1.sum = generated + rems.sum := by omega
        rw [hmin]
        have hplow : generated + out.2 ≤ min total (generated + rems.sum) := by omega
        refine Prod.ext rfl ?_
        simp only
        omega
    · rw [dif_neg hlt]
      have : generated = total := by omega
      simp [this]

/-- The scenario row targets `TransactionGenerator.run` computes: baseline gets
`max(records - causal_total, 0)` rows (truncated subtraction); when causal
generation is enabled and `causal_total > 0` the Simpson scenario additionally
gets `causal_total // 2` rows and the collider scenario the rest, in that
priority order. -/
def scenarioRowTargets (records causalTotal : Nat) (causalOn : Bool) : List Nat :=
  if causalOn ∧ 0 < causalTotal then
    [records - causalTotal, causalTotal / 2, causalTotal - causalTotal / 2]
  else
    [records - causalTotal]

/-- `causal_total = int(round(records * causal_fraud_rate)) if cfg.causal_fraud else 0`. -/
def causalTotalOf (records : Nat) (causalRate : ℚ) (causalOn : Bool) : Nat :=
  if causalOn then (pyRound ((records : ℚ) * causalRate)).toNat else 0

theorem pyRound_le_of_le (x : ℚ) (n : ℕ) (hx : x ≤ (n : ℚ)) :
    pyRound x ≤ (n : ℤ) := by
  have hf : ⌊x⌋ ≤ (n : ℤ) := by
    have := Int.floor_le_floor hx
    simpa using this
  unfold pyRound
  by_cases heq : ⌊x⌋ = (n : ℤ)
  · have hxn : x = (n : ℚ) := le_antisymm hx (by
      have hfl := Int.floor_le x
      rw [heq] at hfl
      exact_mod_cast hfl)
    have hr : x - (⌊x⌋ : ℚ) = 0 := by
      rw [heq, hxn]
      norm_num
    rw [hr, if_pos (by norm_num)]
    exact hf
  · have hflt : ⌊x⌋ + 1 ≤ (n : ℤ) := by omega
    split_ifs <;> omega

theorem causalTotalOf_le (records : Nat) (causalRate : ℚ) (causalOn : Bool)
    (h0 : 0 ≤ causalRate) (h1 : causalRate ≤ 1) :
    causalTotalOf records causalRate causalOn ≤ records := by
  unfold causalTotalOf
  split
  · have hx0 : 0 ≤ (records : ℚ) * causalRate := by positivity
    have hx : (records : ℚ) * causalRate ≤ (records : ℚ) := by
      nlinarith [Nat.cast_nonneg (α := ℚ) records]
    have := pyRound_le_of_le ((records : ℚ) * causalRate) records hx
    omega
  · omega

/-- C2: `TransactionGenerator.run` terminates (the loop is a total function by
construction), the per-scenario row targets it computes sum to `records`, the
loop then produces exactly `records` rows with the metadata accumulator equal
to that count, the finalized metadata reports that same `total_records`, and
for arbitrary remaining-row targets the loop never produces more than `records`
(producing exactly `records` whenever the targets sum to `records`). -/
theorem claim_C2_run_totals (records chunkSize : Nat) (causalOn : Bool) (causalRate : ℚ)
    (hrec : 1 ≤ records) (hcs : 1 ≤ chunkSize)
    (hrate0 : 0 ≤ causalRate) (hrate1 : causalRate ≤ 1) :
    (scenarioRowTargets records (causalTotalOf records causalRate causalOn) causalOn).sum
        = records ∧
    runLoop chunkSize records
        (scenarioRowTargets records (causalTotalOf records causalRate causalOn) causalOn)
        0 0 = (records, records) ∧
    (∀ s : MetadataState,
      s.total_records =
        (runLoop chunkSize records
          (scenarioRowTargets records (causalTotalOf records causalRate causalOn) causalOn)
          0 0).2 →
      (MetadataCollector.finalize s).total_records =
        (runLoop chunkSize records
          (scenarioRowTargets records (causalTotalOf records causalRate causalOn) causalOn)
          0 0).1) ∧
    (∀ rems' : List Nat, (runLoop chunkSize records rems' 0 0).1 ≤ records ∧
      (rems'.sum = records → (runLoop chunkSize records rems' 0 0).1 = records)) := by
  have hct := causalTotalOf_le records causalRate causalOn hrate0 hrate1
  have hoff : causalOn = false → causalTotalOf records causalRate causalOn = 0 := by
    intro h
    simp [causalTotalOf, h]
  have hsum : (scenarioRowTargets records (causalTotalOf records causalRate causalOn)
      causalOn).sum = records := by
    unfold scenarioRowTargets
    split
    · simp only [List.sum_cons, List.sum_nil]
      omega
    · rename_i hcond
      simp only [List.sum_cons, List.sum_nil]
      rcases Bool.eq_false_or_eq_true causalOn with hb | hb
      · have hz : causalTotalOf records causalRate causalOn = 0 := by
          by_contra hnz
          exact hcond ⟨by simp [hb], Nat.pos_of_ne_zero hnz⟩
        omega
      · have := hoff hb
        omega

  have hloop := runLoop_spec chunkSize records hcs records
  refine ⟨hsum, ?_, ?_, ?_⟩
  · rw [hloop (scenarioRowTargets records (causalTotalOf records causalRate causalOn)
      causalOn) 0 0 (by omega) (by omega), hsum]
    simp
  · intro s hs
    rw [hloop (scenarioRowTargets records (causalTotalOf records causalRate causalOn)
      causalOn) 0 0 (by omega) (by omega), hsum] at hs ⊢
    simp only [Nat.zero_add, min_self, Nat.sub_zero] at hs ⊢
    have hrecs : s.total_records = records := by simpa using hs
    simp only [MetadataCollector.finalize, hrecs]
    have : records ≠ 0 := by omega
    simp [this]
  · intro rems'
    rw [hloop rems' 0 0 (by omega) (by omega)]
    constructor
    · simp
    · intro h
      simp [h]

/-- Witness for C2 at `records=200, chunk_size=64`, causal generation on with
`causal_fraud_rate=0.02` (the acceptance-test configuration). -/
theorem claim_C2_run_totals_witness :
    (1 ≤ 200 ∧ 1 ≤ 64 ∧ (0 : ℚ) ≤ 1/50 ∧ (1 : ℚ)/50 ≤ 1) ∧
    runLoop 64 200 (scenarioRowTargets 200 (causalTotalOf 200 (1/50) true) true) 0 0
      = (200, 200) := by
  refine ⟨⟨by norm_num, by norm_num, by norm_num, by norm_num⟩, ?_⟩
  exact (claim_C2_run_totals 200 64 true (1/50) (by norm_num) (by norm_num)
    (by norm_num) (by norm_num)).2.1

/-! ## Randomness model

numpy `Generator` draws are modelled by explicit streams: each primitive draw
consumes an explicit argument (a natural number or a rational supplied from an
input list) and every theorem quantifies over those arguments, covering "any
random stream". -/

/-- `rng.integers(lo, hi)` (half-open interval): an arbitrary stream value `r`
is mapped into `[lo, hi)`. -/
def rngIntegers (lo hi r : Nat) : Nat := lo + r % (hi - lo)

/-- `rng.integers(lo, hi)` over signed bounds (for timestamp jitters). -/
def rngIntegersInt (lo hi : Int) (r : Nat) : Int := lo + (r : Int) % (hi - lo)

/-- The selection core of `rng.choice(pool, size=k, replace=False)`: draws `k`
pairwise-distinct elements, consuming one stream value per draw; each draw
removes the chosen element from the pool (that is what "without replacement"
means).  The probability weights `p` only bias which elements are chosen, so
they are not part of the model. -/
def drawDistinct {α : Type} : Nat → List α → List Nat → List α
  | 0, _, _ => []
  | k + 1, pool, rs =>
    if h : pool.length = 0 then []
    else
      let i := rs.headD 0 % pool.length
      pool.get ⟨i, Nat.mod_lt _ (Nat.pos_of_ne_zero h)⟩ ::
        drawDistinct k (pool.eraseIdx i) rs.tail

theorem drawDistinct_length {α : Type} (k : Nat) (pool : List α) (rs : List Nat) :
    (drawDistinct k pool rs).length = min k pool.length := by
  induction k generalizing pool rs with
  | zero => simp [drawDistinct]
  | succ k ih =>
    rw [drawDistinct]
    split
    · rename_i h
      simp [h]
    · rename_i h
      have hlt : rs.headD 0 % pool.length < pool.length :=
        Nat.mod_lt _ (Nat.pos_of_ne_zero h)
      have herase := List.length_eraseIdx_add_one hlt
      simp only [List.length_cons, ih]
      omega

theorem drawDistinct_subset {α : Type} (k : Nat) (pool : List α) (rs : List Nat) :
    ∀ x ∈ drawDistinct k pool rs, x ∈ pool := by
  induction k generalizing pool rs with
  | zero => simp [drawDistinct]
  | succ k ih =>
    rw [drawDistinct]
    split
    · simp
    · rename_i h
      intro x hx
      rcases List.mem_cons.mp hx with hx | hx
      · rw [hx]
        exact List.get_mem _ _ _
      · exact (List.eraseIdx_sublist pool _).mem (ih _ _ x hx)

theorem drawDistinct_nodup {α : Type} (k : Nat) (pool : List α) (rs : List Nat)
    (hnd : pool.Nodup) : (drawDistinct k pool rs).Nodup := by
  induction k generalizing pool rs with
  | zero => simp [drawDistinct]
  | succ k ih =>
    rw [drawDistinct]
    split
    · simp
    · rename_i h
      have hlt : rs.headD 0 % pool.length < pool.length :=
        Nat.mod_lt _ (Nat.pos_of_ne_zero h)
      refine List.nodup_cons.mpr ⟨?_, ih _ _ (hnd.sublist (List.eraseIdx_sublist pool _))⟩
      intro hmem
      have hmem' := drawDistinct_subset _ _ _ _ hmem
      rcases List.mem_eraseIdx_iff_getElem.mp hmem' with ⟨j, hj, hjne, hget⟩
      have hgj : pool[j] = pool[rs.headD 0 % pool.length] := by
        rw [hget]
        simp [List.get_eq_getElem]
      exact hjne ((List.Nodup.getElem_inj_iff hnd).mp hgj)

/-! ## Dirty-issue sampling (`injectors.DefaultDirtyInjector._sample_issues`) -/

/-- numpy's `rng.choice(pool, size=k, replace=False, p=...)` raises `ValueError`
when the requested size exceeds the population, and otherwise yields `k`
distinct elements. -/
def npChoiceNoReplace {α : Type} (pool : List α) (k : Nat) (rs : List Nat) :
    Except String (List α) :=
  if pool.length < k then
    .error "Cannot take a larger sample than population when replace is False"
  else .ok (drawDistinct k pool rs)

/-- Embedding of `DefaultDirtyInjector._sample_issues`: `issues` is
`self._issues` (the keys of the enabled config's `issue_dist`),
`count = rng.integers(1, max_issues_per_row + 1)`, and the draw is
`rng.choice(len(issues), size=count, replace=False, p=probs)` — with **no**
capping of `count` against the number of available issue types. -/
def sampleIssues (issues : List DataQualityIssue) (maxIssuesPerRow : Nat)
    (countR : Nat) (pickRs : List Nat) : Except String (List DataQualityIssue) :=
  if issues.isEmpty then .ok []
  else
    let count := rngIntegers 1 (maxIssuesPerRow + 1) countR
    if count = 0 ∨ issues.length = 0 then .ok []
    else npChoiceNoReplace issues count pickRs

/-- C5 counterexample: with a single configured issue type and
`max_issues_per_row = 2`, a stream drawing `count = 2` makes
`rng.choice(1, size=2, replace=False)` raise — the draw is not capped to the
available number of types, and the error branch is reachable. -/
theorem claim_C5_counterexample :
    sampleIssues [.MISSING_VALUES] 2 1 [0] =
      .error "Cannot take a larger sample than population when replace is False" := by
  rfl

/-- C5 (amended): for each dirtied row `_sample_issues` draws an issue count
uniformly in `[1, max_issues_per_row]` and, **when that count does not exceed
the number of distinct configured issue types**, draws that many distinct types
without replacement and completes without raising; when the count exceeds the
available types the numpy draw raises `ValueError` (no capping occurs). -/
theorem claim_C5_sample_issues (issues : List DataQualityIssue)
    (maxI countR : Nat) (rs : List Nat)
    (hnodup : issues.Nodup) (hne : issues ≠ []) (hmax : 1 ≤ maxI) :
    1 ≤ rngIntegers 1 (maxI + 1) countR ∧
    rngIntegers 1 (maxI + 1) countR ≤ maxI ∧
    (rngIntegers 1 (maxI + 1) countR ≤ issues.length →
      ∃ out, sampleIssues issues maxI countR rs = .ok out ∧
        out.length = rngIntegers 1 (maxI + 1) countR ∧
        out.Nodup ∧ ∀ x ∈ out, x ∈ issues) ∧
    (issues.length < rngIntegers 1 (maxI + 1) countR →
      sampleIssues issues maxI countR rs =
        .error "Cannot take a larger sample than population when replace is False") := by
  have hmod : countR % ((maxI + 1) - 1) < maxI := by
    have : (maxI + 1) - 1 = maxI := by omega
    rw [this]
    exact Nat.mod_lt _ (by omega)
  have hcount1 : 1 ≤ rngIntegers 1 (maxI + 1) countR := by
    unfold rngIntegers
    omega
  have hcountM : rngIntegers 1 (maxI + 1) countR ≤ maxI := by
    unfold rngIntegers
    omega
  have hempty : issues.isEmpty = false := by
    simpa [List.isEmpty_iff] using hne
  have hlen : issues.length ≠ 0 := by
    simpa [List.length_eq_zero] using hne
  refine ⟨hcount1, hcountM, ?_, ?_⟩
  · intro hle
    refine ⟨drawDistinct (rngIntegers 1 (maxI + 1) countR) issues rs, ?_, ?_, ?_, ?_⟩
    · unfold sampleIssues npChoiceNoReplace
      rw [hempty]
      simp only [Bool.false_eq_true, if_false]
      rw [if_neg (by omega), if_neg (by omega)]
    · rw [drawDistinct_length]
      omega
    · exact drawDistinct_nodup _ _ _ hnodup
    · exact drawDistinct_subset _ _ _
  · intro hgt
    unfold sampleIssues npChoiceNoReplace
    rw [hempty]
    simp only [Bool.false_eq_true, if_false]
    rw [if_neg (by omega), if_pos (by omega)]

/-- Witness for C5's amended theorem at a concrete input. -/
theorem claim_C5_sample_issues_witness :
    ([DataQualityIssue.MISSING_VALUES, .TYPOS_NOISE].Nodup ∧
      [DataQualityIssue.MISSING_VALUES, .TYPOS_NOISE] ≠ [] ∧ 1 ≤ 2) ∧
    rngIntegers 1 3 0 ≤ [DataQualityIssue.MISSING_VALUES, .TYPOS_NOISE].length ∧
    (∃ out, sampleIssues [DataQualityIssue.MISSING_VALUES, .TYPOS_NOISE] 2 0 [0] = .ok out ∧
      out.length = rngIntegers 1 3 0 ∧ out.Nodup ∧
      ∀ x ∈ out, x ∈ [DataQualityIssue.MISSING_VALUES, .TYPOS_NOISE]) := by
  refine ⟨⟨by decide, by decide, by decide⟩, by decide, ?_⟩
  exact (claim_C5_sample_issues [.MISSING_VALUES, .TYPOS_NOISE] 2 0 [0]
    (by decide) (by decide) (by decide)).2.2.1 (by decide)

/-! ## Transaction rows and scenario quota state (`scenarios/base.py`) -/

/-- The columns of a generated transaction row that the verified claims refer
to.  `_generate_base_frame` additionally fills purely descriptive columns
(age band, channel, currency, device type) that no claim mentions; string
columns that `MISSING_VALUES` may null out are `Option`s (`none` = `pd.NA`);
`event_time` is a timestamp in seconds; money amounts are exact rationals. -/
structure TxRow where
  transaction_id : String
  event_time : Int
  customer_id : String
  account_id : String
  region : String
  device_id : Option String
  merchant_id : Option String
  merchant_category : Option String
  merchant_country : Option String
  os : Option String
  app_version : Option String
  ip : Option String
  amount : ℚ
  avg_amount_7d : ℚ
  txns_last_24h : Nat
  chargeback_count_90d : Nat
  is_fraud : Bool
  fraud_type : Option String
  is_causal_fraud : Bool
  is_casual_fraud : Bool
  scenario : String
  is_dirty : Bool
  dirty_issues : List String
deriving DecidableEq, Repr, Inhabited

/-- `ScenarioTargets` from `scenarios/base.py` (Python integers). -/
structure ScenarioTargets where
  total_rows : Int
  fraud_rows : Int
  causal_rows : Int := 0
deriving DecidableEq, Repr

/-- The mutable quota counters a `BaseScenario` instance keeps across `generate`
calls (`self._remaining_fraud`, `self._remaining_causal`). -/
structure QuotaState where
  remaining_fraud : Int
  remaining_causal : Int
deriving DecidableEq, Repr

/-- `BaseScenario.__init__`: counters start at the targets. -/
def QuotaState.ofTargets (t : ScenarioTargets) : QuotaState :=
  { remaining_fraud := t.fraud_rows, remaining_causal := t.causal_rows }

/-- Embedding of `BaseScenario._draw_exact_flags` for one kind: returns the
boolean flag vector over `n` rows together with the updated remaining counter.
`indices = rng.choice(n, size=take, replace=False)` is the distinct-index draw
`drawDistinct` over the pool `[0, n)`. -/
def drawExactFlags (n : Nat) (remaining : Int) (rs : List Nat) : List Bool × Int :=
  if remaining ≤ 0 then (List.replicate n false, remaining)
  else
    let take := min (n : Int) remaining
    let idxs := drawDistinct take.toNat (List.range n) rs
    ((List.range n).map (fun i => decide (i ∈ idxs)), remaining - take)

/-- Number of `true` flags in a vector built from a duplicate-free index list. -/
theorem count_true_flags (n : Nat) (idxs : List Nat) (hnd : idxs.Nodup)
    (hsub : ∀ x ∈ idxs, x < n) :
    ((List.range n).map (fun i => decide (i ∈ idxs))).count true = idxs.length := by
  rw [List.count_eq_countP, List.countP_map]
  have hcongr : List.countP ((fun b => b == true) ∘ fun i => decide (i ∈ idxs))
      (List.range n) = List.countP (fun i => decide (i ∈ idxs)) (List.range n) := by
    apply List.countP_congr
    intro x _
    simp [Function.comp]
  rw [hcongr, List.countP_eq_length_filter]
  have hfn : ((List.range n).filter (fun i => decide (i ∈ idxs))).Nodup :=
    (List.nodup_range n).filter _
  have hfs : ((List.range n).filter (fun i => decide (i ∈ idxs))).toFinset
      = idxs.toFinset := by
    ext x
    simp only [List.mem_toFinset, List.mem_filter, List.mem_range, decide_eq_true_eq]
    exact ⟨fun h => h.2, fun h => ⟨hsub x h, h⟩⟩
  have := congrArg Finset.card hfs
  rwa [List.toFinset_card_of_nodup hfn, List.toFinset_card_of_nodup hnd] at this

/-- Length of a flag vector from `_draw_exact_flags` is `n`. -/
theorem drawExactFlags_length (n : Nat) (remaining : Int) (rs : List Nat) :
    (drawExactFlags n remaining rs).1.length = n := by
  unfold drawExactFlags
  split <;> simp

/-- Scalar behaviour of `_draw_exact_flags` on a nonnegative counter: the flag
count is `min n remaining` and the counter decreases by exactly that much. -/
theorem drawExactFlags_spec (n : Nat) (remaining : Int) (rs : List Nat)
    (h : 0 ≤ remaining) :
    ((drawExactFlags n remaining rs).1.count true : Int)
        = min (n : Int) remaining ∧
    (drawExactFlags n remaining rs).2 = remaining - min (n : Int) remaining := by
  unfold drawExactFlags
  by_cases h0 : remaining ≤ 0
  · have hz : remaining = 0 := le_antisymm h0 h
    rw [if_pos h0]
    constructor
    · simp [hz, List.count_replicate]
    · simp [hz]
  · rw [if_neg h0]
    have hmin0 : 0 ≤ min (n : Int) remaining := by
      push_neg at h0
      exact le_min (by positivity) (le_of_lt h0)
    have hminn : (min (n : Int) remaining).toNat ≤ n := by omega
    constructor
    · simp only
      rw [count_true_flags n _
        (drawDistinct_nodup _ _ _ (List.nodup_range n))
        (fun x hx => List.mem_range.mp (drawDistinct_subset _ _ _ x hx))]
      rw [drawDistinct_length]
      simp only [List.length_range]
      omega
    · simp

/-- Embedding of `BaseScenario._assign_fraud_types` as the produced
`fraud_type` column: every entry is reset to `None`, then flagged positions
receive, in order, keys drawn from the fraud-type distribution
(`rng.choice(fraud_types, size=count, p=fraud_probs)`; each draw consumes one
stream value and selects a key by index; the distribution is non-empty for any
validated config, which theorems hypothesize). -/
def assignFraudTypesGo (fraudTypes : List String) :
    List Bool → List Nat → List (Option String)
  | [], _ => []
  | false :: fs, rs => none :: assignFraudTypesGo fraudTypes fs rs
  | true :: fs, rs =>
      some (fraudTypes.getD (rs.headD 0 % fraudTypes.length) "") ::
        assignFraudTypesGo fraudTypes fs rs.tail

/-- `_assign_fraud_types`: the `count == 0` early return produces the same
all-`None` column as the general path. -/
def assignFraudTypes (flags : List Bool) (fraudTypes : List String)
    (picks : List Nat) : List (Option String) :=
  if flags.count true = 0 then flags.map (fun _ => none)
  else assignFraudTypesGo fraudTypes flags picks

/-! ## Baseline scenario (`scenarios/baseline.py`) -/

/-- Embedding of `BaselineFraudScenario.generate`, applied to the base frame
`base` (the output of `_generate_base_frame`; no claim constrains its
synthesized column values, so the theorems quantify over it).  Mirrors the
source's column assignments in order: `is_fraud` from the fraud flag draw,
`is_causal_fraud` from the causal flag draw, `fraud_type` from
`_assign_fraud_types`, the scenario name, and finally the alias copy
`df["is_casual_fraud"] = df["is_causal_fraud"]`. -/
def baselineGenerate (base : List TxRow) (rsFraud rsCausal : List Nat)
    (fraudTypes : List String) (typePicks : List Nat) (s : QuotaState) :
    List TxRow × QuotaState :=
  let n := base.length
  let fr := drawExactFlags n s.remaining_fraud rsFraud
  let ca := drawExactFlags n s.remaining_causal rsCausal
  let df1 := List.zipWith (fun r f => { r with is_fraud := f }) base fr.1
  let df2 := List.zipWith (fun r f => { r with is_causal_fraud := f }) df1 ca.1
  let df3 := List.zipWith (fun r t => { r with fraud_type := t }) df2
    (assignFraudTypes fr.1 fraudTypes typePicks)
  let df4 := df3.map (fun r => { r with scenario := "baseline" })
  let df5 := df4.map (fun r => { r with is_casual_fraud := r.is_causal_fraud })
  (df5, { remaining_fraud := fr.2, remaining_causal := ca.2 })

/-! ## Collider scenario (`scenarios/causal_collider.py`) -/

/-- `round(x, 2)` / `np.round(x, 2)`: scale by 100, round half to even,
scale back. -/
def round2 (x : ℚ) : ℚ := ((pyRound (x * 100) : ℚ)) / 100

/-- Code-point lexicographic string comparison (how Python and pandas order
region labels). -/
def charListLe : List Char → List Char → Bool
  | [], _ => true
  | _ :: _, [] => false
  | a :: as, b :: bs => if a < b then true else if b < a then false else charListLe as bs

/-- `a <= b` on strings, by code points. -/
def strLe (a b : String) : Bool := charListLe a.data b.data

/-- `np.quantile(xs, q)` with the default linear interpolation between the two
nearest order statistics. -/
def npQuantile (xs : List ℚ) (q : ℚ) : ℚ :=
  let sorted := xs.insertionSort (fun a b => a ≤ b)
  let n := xs.length
  if n = 0 then 0
  else
    let h : ℚ := q * ((n : ℚ) - 1)
    let lo := ⌊h⌋.toNat
    let frac := h - (⌊h⌋ : ℚ)
    let a := sorted.getD lo 0
    let b := sorted.getD (min (lo + 1) (n - 1)) 0
    a + frac * (b - a)

/-- `np.argsort(keys)[::-1]`: indices sorted by key ascending (ties in an
implementation-defined order, here the stable merge sort), then reversed. -/
def argsortDesc (keys : List ℚ) : List Nat :=
  ((List.range keys.length).insertionSort
    (fun i j => keys.getD i 0 ≤ keys.getD j 0)).reverse

/-- The latent risk vector of `CausalColliderScenario.generate`:
`0.4 * txns_last_24h + 0.6 * chargeback_count_90d + rng.normal(0, 0.5)`; the
Gaussian noise draws are the input stream `noise`. -/
def colliderLatent (df0 : List TxRow) (noise : List ℚ) : List ℚ :=
  df0.enum.map (fun p =>
    (2/5 : ℚ) * (p.2.txns_last_24h : ℚ) + (3/5 : ℚ) * (p.2.chargeback_count_90d : ℚ)
      + noise.getD p.1 0)

/-- The fraud-index selection and counter update of
`CausalColliderScenario.generate`: when `desired = min(remaining_fraud, n)` is
positive, the `desired` highest latent-risk row indices are flagged and
**both** remaining counters are decremented by `desired`. -/
def colliderSelect (latent : List ℚ) (n : Nat) (s : QuotaState) :
    List Nat × QuotaState :=
  let desired := min s.remaining_fraud (n : Int)
  if 0 < desired then
    ((argsortDesc latent).take desired.toNat,
     { remaining_fraud := s.remaining_fraud - desired,
       remaining_causal := s.remaining_causal - desired })
  else ([], s)

/-- Embedding of `CausalColliderScenario.generate`.  Rows above the 70th
percentile of latent risk are reviewed (amount × 0.7), the rest inflated
(amount × 1.2); fraud flags go to the top latent-risk rows via
`colliderSelect`, then fraud types and the alias copy are applied. -/
def colliderGenerate (base : List TxRow) (noise : List ℚ)
    (fraudTypes : List String) (typePicks : List Nat) (s : QuotaState) :
    List TxRow × QuotaState :=
  let n := base.length
  let df0 := base.map (fun r => { r with scenario := "causal_collider" })
  let latent := colliderLatent df0 noise
  let threshold := npQuantile latent (7/10)
  let df1 := df0.enum.map (fun p =>
    if threshold < latent.getD p.1 0 then { p.2 with amount := round2 (p.2.amount * (7/10)) }
    else { p.2 with amount := round2 (p.2.amount * (6/5)) })
  let sel := colliderSelect latent n s
  let flags := (List.range n).map (fun i => decide (i ∈ sel.1))
  let df2 := List.zipWith (fun r f => { r with is_fraud := f }) df1 flags
  let df3 := List.zipWith (fun r f => { r with is_causal_fraud := f }) df2 flags
  let df4 := List.zipWith (fun r t => { r with fraud_type := t }) df3
    (assignFraudTypes flags fraudTypes typePicks)
  let df5 := df4.map (fun r => { r with is_casual_fraud := r.is_causal_fraud })
  (df5, sel.2)

/-! ## Simpson scenario (`scenarios/causal_simpson.py`) -/

/-- The fixed `regional_multiplier` mapping.  (For a region outside the four
default keys `dict.get` would yield `None` and the numpy multiply would raise
`TypeError`; base frames built from the default region distribution only carry
these four keys, so the embedding totalizes the lookup with multiplier 1.) -/
def regionalMultiplier (region : String) : ℚ :=
  if region = "NORTH" then 8/5
  else if region = "SOUTH" then 9/10
  else if region = "EAST" then 7/5
  else if region = "WEST" then 1
  else 1

/-- Amount order on indexed rows. -/
def amtLe (a b : Nat × TxRow) : Prop := a.2.amount ≤ b.2.amount

instance : DecidableRel amtLe :=
  fun a b => inferInstanceAs (Decidable (a.2.amount ≤ b.2.amount))

instance : IsTotal (Nat × TxRow) amtLe := ⟨fun a b => le_total a.2.amount b.2.amount⟩

instance : IsTrans (Nat × TxRow) amtLe := ⟨fun _ _ _ => le_trans⟩

/-- `group.sort_values("amount")`: rows sorted by amount ascending (ties in an
implementation-defined order, here a stable sort), keeping their original
dataframe index labels. -/
def sortByAmount (l : List (Nat × TxRow)) : List (Nat × TxRow) :=
  l.insertionSort amtLe

/-- The `for idx in leftovers` loop of `_select_low_amount_indices`: walk the
globally amount-sorted rows, appending each index not yet selected, stopping as
soon as `count` indices are selected. -/
def fillLeftovers : List (Nat × TxRow) → Nat → List Nat → List Nat
  | [], _, acc => acc
  | x :: rest, count, acc =>
    if acc.contains x.1 then fillLeftovers rest count acc
    else
      let acc2 := acc ++ [x.1]
      if count ≤ acc2.length then acc2 else fillLeftovers rest count acc2

/-- `df.groupby("region")` of `_select_low_amount_indices`: one group per
distinct region label (ascending label order), each keeping the dataframe's row
order; index labels are the row positions `0..n-1` of the base frame. -/
def regionGroups (df : List TxRow) : List (List (Nat × TxRow)) :=
  (((df.enum.map (fun p => p.2.region)).insertionSort
    (fun a b => strLe a b = true)).dedup).map
    (fun g => df.enum.filter (fun p => p.2.region == g))

/-- `quota = max(1, count // max(1, grouped.ngroups))`. -/
def perRegionQuota (df : List TxRow) (count : Nat) : Nat :=
  max 1 (count / max 1 (regionGroups df).length)

/-- The per-region phase of `_select_low_amount_indices`: each group
contributes the index labels of its `min(quota, len(group))` lowest-amount
rows, in group order. -/
def perRegionSel (df : List TxRow) (count : Nat) : List Nat :=
  (regionGroups df).flatMap (fun grp =>
    ((sortByAmount grp).take (min (perRegionQuota df count) grp.length)).map
      (fun p => p.1))

/-- Embedding of `CausalSimpsonScenario._select_low_amount_indices`: the
per-region selections; if they underfill `count`, the globally amount-sorted
not-yet-selected indices fill up the selection; finally the list is truncated
to `count` entries. -/
def selectLowAmountIndices (df : List TxRow) (count : Nat) : List Nat :=
  let perRegion := perRegionSel df count
  let filled :=
    if perRegion.length < count then fillLeftovers (sortByAmount df.enum) count perRegion
    else perRegion
  filled.take count

/-- The fraud-index selection and counter update of
`CausalSimpsonScenario.generate`: when `desired = min(remaining_fraud, n)` is
positive, the lowest-amount indices are selected via
`_select_low_amount_indices` and **both** remaining counters are decremented by
`desired`. -/
def simpsonSelect (df1 : List TxRow) (n : Nat) (s : QuotaState) :
    List Nat × QuotaState :=
  let desired := min s.remaining_fraud (n : Int)
  if 0 < desired then
    (selectLowAmountIndices df1 desired.toNat,
     { remaining_fraud := s.remaining_fraud - desired,
       remaining_causal := s.remaining_causal - desired })
  else ([], s)

/-- Embedding of `CausalSimpsonScenario.generate`: scenario name, regional
amount multipliers, fraud flags on the selected low-amount indices via
`simpsonSelect`, fraud types, then the alias copy. -/
def simpsonGenerate (base : List TxRow) (fraudTypes : List String)
    (typePicks : List Nat) (s : QuotaState) : List TxRow × QuotaState :=
  let n := base.length
  let df0 := base.map (fun r => { r with scenario := "causal_simpson" })
  let df1 := df0.map (fun r =>
    { r with amount := round2 (r.amount * regionalMultiplier r.region) })
  let sel := simpsonSelect df1 n s
  let flags := (List.range n).map (fun i => decide (i ∈ sel.1))
  let df2 := List.zipWith (fun r f => { r with is_fraud := f }) df1 flags
  let df3 := List.zipWith (fun r f => { r with is_causal_fraud := f }) df2 flags
  let df4 := List.zipWith (fun r t => { r with fraud_type := t }) df3
    (assignFraudTypes flags fraudTypes typePicks)
  let df5 := df4.map (fun r => { r with is_casual_fraud := r.is_causal_fraud })
  (df5, sel.2)

/-! ## Dirty-data injector (`dq/injectors.py`) -/

/-- `SAFE_STRING_COLS` from `dq/injectors.py`. -/
def SAFE_STRING_COLS : List String :=
  ["merchant_id", "device_id", "ip", "os", "app_version",
   "merchant_category", "merchant_country"]

/-- Read a string column as `str(df.at[idx, col])` renders it (`pd.NA` prints
as `"<NA>"`).  Columns outside the modelled subset are not referenced by any
whitelist the claims mention. -/
def TxRow.getStrCol (r : TxRow) (col : String) : String :=
  let v : Option String :=
    if col = "merchant_id" then r.merchant_id
    else if col = "device_id" then r.device_id
    else if col = "ip" then r.ip
    else if col = "os" then r.os
    else if col = "app_version" then r.app_version
    else if col = "merchant_category" then r.merchant_category
    else if col = "merchant_country" then r.merchant_country
    else some ""
  match v with
  | none => "<NA>"
  | some s => s

/-- Write a string column (`df.at[idx, col] = v`). -/
def TxRow.setStrCol (r : TxRow) (col : String) (v : Option String) : TxRow :=
  if col = "merchant_id" then { r with merchant_id := v }
  else if col = "device_id" then { r with device_id := v }
  else if col = "ip" then { r with ip := v }
  else if col = "os" then { r with os := v }
  else if col = "app_version" then { r with app_version := v }
  else if col = "merchant_category" then { r with merchant_category := v }
  else if col = "merchant_country" then { r with merchant_country := v }
  else r

/-- The random draws one issue application may consume. -/
structure IssueRands where
  colPick : Nat
  insertPos : Nat
  charR : Nat
  factor : ℚ
  srcR : Nat
  idRs : List Nat
  jitterR : Nat
  pert : ℚ
  dateJitterR : Nat
deriving Repr, Inhabited

/-- The random draws one row of `DefaultDirtyInjector.apply` may consume. -/
structure RowRands where
  u : ℚ
  countR : Nat
  pickRs : List Nat
  issueRs : List IssueRands
deriving Repr, Inhabited

/-- Zero-padded 8-digit lowercase hex rendering of a `uint32` value
(`f"{int(x):08x}"`). -/
def hex8 (v : Nat) : String :=
  let s := String.mk (Nat.toDigits 16 (v % 4294967296))
  String.mk (List.replicate (8 - s.length) '0') ++ s

/-- `DefaultDirtyInjector._random_transaction_id`: four `uint32` draws rendered
as dash-joined 8-hex-digit groups. -/
def randomTransactionId (rs : List Nat) : String :=
  String.intercalate "-"
    [hex8 (rs.getD 0 0), hex8 (rs.getD 1 0), hex8 (rs.getD 2 0), hex8 (rs.getD 3 0)]

/-- `DefaultDirtyInjector._missing_values`: pick a whitelisted column
(an empty or missing whitelist falls back to `SAFE_STRING_COLS`, as Python
`or` does) and null it, unless the pick is `transaction_id`. -/
def missingValues (whitelist : Option (List String)) (df : List TxRow) (idx : Nat)
    (ir : IssueRands) : List TxRow :=
  let cols := match whitelist with
    | some l => if l.isEmpty then SAFE_STRING_COLS else l
    | none => SAFE_STRING_COLS
  let col := cols.getD (ir.colPick % cols.length) ""
  if col = "transaction_id" then df
  else df.set idx ((df.getD idx default).setStrCol col none)

/-- `DefaultDirtyInjector._typos_noise`: insert one random uppercase letter at
a random position of a whitelisted string column's value (no-op if empty). -/
def typosNoise (whitelist : Option (List String)) (df : List TxRow) (idx : Nat)
    (ir : IssueRands) : List TxRow :=
  let cols := match whitelist with
    | some l => if l.isEmpty then SAFE_STRING_COLS else l
    | none => SAFE_STRING_COLS
  let col := cols.getD (ir.colPick % cols.length) ""
  let value := (df.getD idx default).getStrCol col
  if value = "" then df
  else
    let pos := ir.insertPos % (value.length + 1)
    let noisyChar := Char.ofNat (65 + ir.charR % 26)
    let mutated := String.mk (value.toList.take pos ++ noisyChar :: value.toList.drop pos)
    df.set idx ((df.getD idx default).setStrCol col (some mutated))

/-- `DefaultDirtyInjector._outlier_amount`: multiply the amount by a log-normal
factor (the draw is the input `ir.factor`), floor at `0.01`, round to 2
decimals, and re-derive the 7-day average as `0.8 ×` the new amount. -/
def outlierAmount (df : List TxRow) (idx : Nat) (ir : IssueRands) : List TxRow :=
  let r := df.getD idx default
  let newAmount := max (1/100 : ℚ) (r.amount * ir.factor)
  df.set idx { r with amount := round2 newAmount, avg_amount_7d := round2 (newAmount * (4/5)) }

/-- `DefaultDirtyInjector._duplicate_rows`: choose a source row (stepping one
position forward if the draw hits the target itself), copy every column except
`transaction_id` from the source into the target, give the target a fresh
random transaction id, jitter its timestamp by `rng.integers(-300, 301)`
seconds, and perturb its amount by `rng.uniform(0.95, 1.05)` (the input
`ir.pert`).  (In Python the copied `dirty_issues` cell is the *same list
object* as the source row's, so later tag appends alias; the claims do not
inspect that column, and the embedding copies it by value.) -/
def duplicateRows (df : List TxRow) (idx : Nat) (ir : IssueRands) : List TxRow :=
  if hn : df.length = 0 then df
  else
    let source0 := ir.srcR % df.length
    let source := if source0 = idx then (source0 + 1) % df.length else source0
    let target := df.getD idx default
    let src := df.getD source default
    let copied := { src with transaction_id := target.transaction_id }
    let withId := { copied with transaction_id := randomTransactionId ir.idRs }
    let jitter := rngIntegersInt (-300) 301 ir.jitterR
    let withTime := { withId with event_time := withId.event_time + jitter }
    let withAmt := { withTime with amount := round2 (withTime.amount * ir.pert) }
    df.set idx withAmt

/-- `DefaultDirtyInjector._swap_fields`: swap `customer_id ↔ account_id` and
`merchant_id ↔ device_id` (the fixed `SWAP_PAIRS`). -/
def swapFields (df : List TxRow) (idx : Nat) : List TxRow :=
  let r := df.getD idx default
  df.set idx { r with customer_id := r.account_id, account_id := r.customer_id,
                      merchant_id := r.device_id, device_id := r.merchant_id }

/-- `DefaultDirtyInjector._date_jitter`: shift the timestamp by
`rng.integers(-600, 601)` seconds. -/
def dateJitter (df : List TxRow) (idx : Nat) (ir : IssueRands) : List TxRow :=
  let r := df.getD idx default
  df.set idx { r with event_time := r.event_time + rngIntegersInt (-600) 601 ir.dateJitterR }

/-- `DefaultDirtyInjector._apply_issue`: dispatch on the issue type, then append
the issue's name to the row's `dirty_issues` list.  The dispatch is total over
the enum, so the `raise ValueError` fallback is unreachable. -/
def applyIssue (cfg : DataQualityConfig) (df : List TxRow) (idx : Nat)
    (issue : DataQualityIssue) (ir : IssueRands) : List TxRow :=
  let df2 := match issue with
    | .MISSING_VALUES => missingValues cfg.missing_cols_whitelist df idx ir
    | .TYPOS_NOISE => typosNoise cfg.typos_cols_whitelist df idx ir
    | .OUTLIER_AMOUNT => outlierAmount df idx ir
    | .DUPLICATE_ROWS => duplicateRows df idx ir
    | .SWAP_FIELDS => swapFields df idx
    | .DATE_JITTER => dateJitter df idx ir
  List.modify (fun r => { r with dirty_issues := r.dirty_issues ++ [issue.value] }) idx df2

/-- The `for issue in issues` inner loop of `DefaultDirtyInjector.apply`,
collecting the applied issue names for the counter. -/
def applyIssuesList (cfg : DataQualityConfig) (idx : Nat) :
    List TxRow → List DataQualityIssue → List IssueRands → List TxRow × List String
  | df, [], _ => (df, [])
  | df, issue :: rest, irs =>
    let df2 := applyIssue cfg df idx issue (irs.headD default)
    let out := applyIssuesList cfg idx df2 rest irs.tail
    (out.1, issue.value :: out.2)

/-- The `for idx in indices` outer loop of `DefaultDirtyInjector.apply`; a
sampling error (C5) propagates out of `apply`. -/
def injectorLoop (cfg : DataQualityConfig) (issuesList : List DataQualityIssue)
    (rows : List RowRands) :
    List TxRow → List Nat → Except String (List TxRow × List String)
  | df, [] => .ok (df, [])
  | df, idx :: rest => do
    let rr := rows.getD idx default
    let issues ← sampleIssues issuesList cfg.max_issues_per_row rr.countR rr.pickRs
    let out := applyIssuesList cfg idx df issues rr.issueRs
    let restOut ← injectorLoop cfg issuesList rows out.1 rest
    .ok (restOut.1, out.2 ++ restOut.2)

/-- Render a list of applied-issue names as a `Counter`. -/
def countOccurrences (tags : List String) : List (String × Nat) :=
  tags.dedup.map (fun t => (t, tags.count t))

/-- Embedding of `DefaultDirtyInjector.apply`.  Disabled config or empty batch
pass through with empty counts.  Otherwise: re-materializing the per-row
`dirty_issues` lists is a no-op under value semantics; the dirty mask is one
`rng.random()` draw per row compared against `row_dirty_rate`; sampled issues
are applied per dirty row; dirty rows get `is_dirty = True`; the counter gains
the special `__rows__` entry; and finally the alias column is rewritten with
`mutated["is_casual_fraud"] = mutated["is_causal_fraud"]`. -/
def injectorApply (cfg : DataQualityConfig) (df : List TxRow) (rows : List RowRands) :
    Except String (List TxRow × List (String × Nat)) :=
  if ¬cfg.enabled ∨ df.isEmpty then .ok (df, [])
  else do
    let issuesList := cfg.issue_dist.map Prod.fst
    let indices := (List.range df.length).filter
      (fun i => decide ((rows.getD i default).u < cfg.row_dirty_rate))
    let res ← injectorLoop cfg issuesList rows df indices
    let df2 := res.1.enum.map (fun p =>
      if indices.contains p.1 then { p.2 with is_dirty := true } else p.2)
    let counter := countOccurrences res.2 ++ [("__rows__", indices.length)]
    let df3 := df2.map (fun r => { r with is_casual_fraud := r.is_causal_fraud })
    .ok (df3, counter)

/-! ## C3: the `is_casual_fraud` alias column -/

/-- C3: in every batch produced by the pipeline — after any scenario's
`generate` and after dirty-data injection when enabled — the alias column
`is_casual_fraud` holds exactly the value of `is_causal_fraud` on every row:
each of these operations ends by rewriting the alias column from
`is_causal_fraud`. -/
theorem claim_C3_alias_mirror :
    (∀ base rsF rsC ft tp s, ∀ r ∈ (baselineGenerate base rsF rsC ft tp s).1,
      r.is_casual_fraud = r.is_causal_fraud) ∧
    (∀ base noise ft tp s, ∀ r ∈ (colliderGenerate base noise ft tp s).1,
      r.is_casual_fraud = r.is_causal_fraud) ∧
    (∀ base ft tp s, ∀ r ∈ (simpsonGenerate base ft tp s).1,
      r.is_casual_fraud = r.is_causal_fraud) ∧
    (∀ cfg df rows out, injectorApply cfg df rows = .ok out → cfg.enabled = true →
      ∀ r ∈ out.1, r.is_casual_fraud = r.is_causal_fraud) := by
  refine ⟨?_, ?_, ?_, ?_⟩
  · intro base rsF rsC ft tp s r hr
    simp only [baselineGenerate, List.mem_map] at hr
    obtain ⟨a, _, rfl⟩ := hr
    rfl
  · intro base noise ft tp s r hr
    simp only [colliderGenerate, List.mem_map] at hr
    obtain ⟨a, _, rfl⟩ := hr
    rfl
  · intro base ft tp s r hr
    simp only [simpsonGenerate, List.mem_map] at hr
    obtain ⟨a, _, rfl⟩ := hr
    rfl
  · intro cfg df rows out hok hen r hr
    unfold injectorApply at hok
    by_cases hcond : ¬cfg.enabled ∨ df.isEmpty
    · rw [if_pos hcond] at hok
      rcases hcond with hcond | hcond
      · exact absurd hen (by simpa using hcond)
      · obtain rfl : (df, ([] : List (String × Nat))) = out := by
          exact Except.ok.inj hok
        have : df = [] := by simpa [List.isEmpty_iff] using hcond
        rw [this] at hr
        simp at hr
    · rw [if_neg hcond] at hok
      simp only [Bind.bind, Except.bind] at hok
      cases hres : injectorLoop cfg (cfg.issue_dist.map Prod.fst) rows df
          ((List.range df.length).filter
            (fun i => decide ((rows.getD i default).u < cfg.row_dirty_rate))) with
      | error e => rw [hres] at hok; exact absurd hok (by simp)
      | ok v =>
        rw [hres] at hok
        obtain rfl := Except.ok.inj hok
        simp only [List.mem_map] at hr
        obtain ⟨a, _, rfl⟩ := hr
        rfl

/-- Witness for C3 at concrete inputs: a one-row baseline batch and a one-row
enabled injector run (date-jitter issue). -/
theorem claim_C3_alias_mirror_witness :
    (∃ r, r ∈ (baselineGenerate [default] [0] [0] ["CARD_NOT_PRESENT"] [0]
        { remaining_fraud := 1, remaining_causal := 0 }).1 ∧
      r.is_casual_fraud = r.is_causal_fraud) ∧
    (∃ out, injectorApply
        { enabled := true, row_dirty_rate := 1, issue_dist := [(.DATE_JITTER, 1)] }
        [default] [{ u := 0, countR := 0, pickRs := [0], issueRs := [default] }]
        = .ok out ∧
      ∃ r, r ∈ out.1 ∧ r.is_casual_fraud = r.is_causal_fraud) := by
  constructor
  · have hlen : (baselineGenerate [default] [0] [0] ["CARD_NOT_PRESENT"] [0]
        { remaining_fraud := 1, remaining_causal := 0 }).1.length = 1 := by rfl
    have hmem := List.getElem_mem (l := (baselineGenerate [default] [0] [0]
      ["CARD_NOT_PRESENT"] [0] { remaining_fraud := 1, remaining_causal := 0 }).1)
      (n := 0) (by rw [hlen]; omega)
    exact ⟨_, hmem, claim_C3_alias_mirror.1 _ _ _ _ _ _ _ hmem⟩
  · have hok : injectorApply
        { enabled := true, row_dirty_rate := 1, issue_dist := [(.DATE_JITTER, 1)] }
        [default] [{ u := 0, countR := 0, pickRs := [0], issueRs := [default] }]
        = .ok ((injectorApply
          { enabled := true, row_dirty_rate := 1, issue_dist := [(.DATE_JITTER, 1)] }
          [default] [{ u := 0, countR := 0, pickRs := [0], issueRs := [default] }]).toOption.getD
            ([], [])) := by
      rfl
    refine ⟨_, hok, ?_⟩
    have hlen : ((injectorApply
        { enabled := true, row_dirty_rate := 1, issue_dist := [(.DATE_JITTER, 1)] }
        [default] [{ u := 0, countR := 0, pickRs := [0], issueRs := [default] }]).toOption.getD
          ([], [])).1.length = 1 := by rfl
    have hmem := List.getElem_mem (l := ((injectorApply
        { enabled := true, row_dirty_rate := 1, issue_dist := [(.DATE_JITTER, 1)] }
        [default] [{ u := 0, countR := 0, pickRs := [0], issueRs := [default] }]).toOption.getD
          ([], [])).1) (n := 0) (by rw [hlen]; omega)
    exact ⟨_, hmem, claim_C3_alias_mirror.2.2.2 _ _ _ _ hok rfl _ hmem⟩

/-! ## C10: fraud types are assigned exactly on fraud-flagged rows -/

theorem assignFraudTypesGo_length (ft : List String) (flags : List Bool) (rs : List Nat) :
    (assignFraudTypesGo ft flags rs).length = flags.length := by
  induction flags generalizing rs with
  | nil => rfl
  | cons f fs ih =>
    cases f <;> simp [assignFraudTypesGo, ih]

theorem assignFraudTypes_length (flags : List Bool) (ft : List String) (ps : List Nat) :
    (assignFraudTypes flags ft ps).length = flags.length := by
  unfold assignFraudTypes
  split
  · simp
  · exact assignFraudTypesGo_length ft flags ps

theorem assignFraudTypesGo_getD (ft : List String) (flags : List Bool) (rs : List Nat)
    (i : Nat) (hi : i < flags.length) :
    ((assignFraudTypesGo ft flags rs).getD i none = none ↔ flags.getD i false = false) ∧
    ∀ t, (assignFraudTypesGo ft flags rs).getD i none = some t → ft ≠ [] → t ∈ ft := by
  induction flags generalizing rs i with
  | nil => simp at hi
  | cons f fs ih =>
    cases i with
    | zero =>
      cases f
      · simp [assignFraudTypesGo]
      · refine ⟨by simp [assignFraudTypesGo], ?_⟩
        intro t ht hft
        simp only [assignFraudTypesGo, List.getD_cons_zero, Option.some.injEq] at ht
        have hlen : 0 < ft.length := List.length_pos.mpr hft
        rw [← ht, List.getD_eq_getElem ft "" (Nat.mod_lt _ hlen)]
        exact List.getElem_mem _
    | succ j =>
      have hj : j < fs.length := by simpa using hi
      cases f
      · simpa [assignFraudTypesGo] using ih rs j hj
      · simpa [assignFraudTypesGo] using ih rs.tail j hj

theorem assignFraudTypes_getD (flags : List Bool) (ft : List String) (ps : List Nat)
    (i : Nat) (hi : i < flags.length) :
    ((assignFraudTypes flags ft ps).getD i none = none ↔ flags.getD i false = false) ∧
    ∀ t, (assignFraudTypes flags ft ps).getD i none = some t → ft ≠ [] → t ∈ ft := by
  unfold assignFraudTypes
  split
  · rename_i hz
    have hall : flags.getD i false = false := by
      have : ¬ true ∈ flags := by
        intro hmem
        have := (List.count_pos_iff_mem).mpr hmem
        omega
      rw [List.getD_eq_getElem flags false hi]
      rcases Bool.eq_false_or_eq_true flags[i] with h | h
      · exact absurd (h ▸ List.getElem_mem hi) this
      · exact h
    constructor
    · constructor
      · intro _
        exact hall
      · intro _
        rcases Nat.lt_or_ge i (flags.map (fun _ => (none : Option String))).length with h | h
        · rw [List.getD_eq_getElem _ _ h, List.getElem_map]
        · exact List.getD_eq_default _ _ (by omega)
    · intro t ht
      exfalso
      rcases Nat.lt_or_ge i (flags.map (fun _ => (none : Option String))).length with h | h
      · rw [List.getD_eq_getElem _ _ h, List.getElem_map] at ht
        exact Option.noConfusion ht
      · rw [List.getD_eq_default _ _ (by omega)] at ht
        exact Option.noConfusion ht
  · exact assignFraudTypesGo_getD ft flags ps i hi

theorem baselineGenerate_out_length (base : List TxRow) (rsF rsC : List Nat)
    (ft : List String) (tp : List Nat) (s : QuotaState) :
    (baselineGenerate base rsF rsC ft tp s).1.length = base.length := by
  simp [baselineGenerate, List.length_zipWith, drawExactFlags_length,
    assignFraudTypes_length]

theorem colliderGenerate_out_length (base : List TxRow) (noise : List ℚ)
    (ft : List String) (tp : List Nat) (s : QuotaState) :
    (colliderGenerate base noise ft tp s).1.length = base.length := by
  simp [colliderGenerate, List.length_zipWith, assignFraudTypes_length,
    List.enum_length]

theorem simpsonGenerate_out_length (base : List TxRow) (ft : List String)
    (tp : List Nat) (s : QuotaState) :
    (simpsonGenerate base ft tp s).1.length = base.length := by
  simp [simpsonGenerate, List.length_zipWith, assignFraudTypes_length]

/-- The common label-overlay tail of all three `generate` implementations:
rows zipped with fraud flags, causal flags and assigned fraud types, then a
final per-row rewrite `h` (scenario naming and/or the alias copy) that touches
neither `fraud_type` nor `is_fraud`. -/
theorem labeledRows_spec (df1 : List TxRow) (flagsF flagsC : List Bool)
    (ft : List String) (tp : List Nat) (h : TxRow → TxRow) (out : List TxRow)
    (hout : out = (List.zipWith (fun r t => { r with fraud_type := t })
        (List.zipWith (fun r f => { r with is_causal_fraud := f })
          (List.zipWith (fun r f => { r with is_fraud := f }) df1 flagsF) flagsC)
        (assignFraudTypes flagsF ft tp)).map h)
    (hhf : ∀ r, (h r).fraud_type = r.fraud_type)
    (hhi : ∀ r, (h r).is_fraud = r.is_fraud)
    (hF : flagsF.length = df1.length) (hC : flagsC.length = df1.length)
    (i : Nat) (hi : i < df1.length) (hft : ft ≠ []) :
    ((out.getD i default).fraud_type = none ↔ (out.getD i default).is_fraud = false) ∧
    ∀ t, (out.getD i default).fraud_type = some t → t ∈ ft := by
  subst hout
  have hTlen : (assignFraudTypes flagsF ft tp).length = flagsF.length :=
    assignFraudTypes_length _ _ _
  have hb : i < ((List.zipWith (fun r t => { r with fraud_type := t })
      (List.zipWith (fun r f => { r with is_causal_fraud := f })
        (List.zipWith (fun r f => { r with is_fraud := f }) df1 flagsF) flagsC)
      (assignFraudTypes flagsF ft tp)).map h).length := by
    simp only [List.length_map, List.length_zipWith, hTlen, hF, hC]
    omega
  rw [List.getD_eq_getElem _ _ hb]
  simp only [List.getElem_map, List.getElem_zipWith, hhf, hhi]
  have hspec := assignFraudTypes_getD flagsF ft tp i (by omega)
  rw [List.getD_eq_getElem _ _ (by omega : i < (assignFraudTypes flagsF ft tp).length),
    List.getD_eq_getElem _ _ (by omega : i < flagsF.length)] at hspec
  exact ⟨hspec.1, fun t ht => hspec.2 t ht hft⟩

/-- C10: in every batch returned by any scenario's `generate`, `fraud_type` is
non-null exactly on the rows flagged `is_fraud`, and every assigned fraud type
is one of the configured fraud-type distribution's keys (the distribution is
non-empty for every validated config). -/
theorem claim_C10_fraud_type_iff_flag (ft : List String) (hft : ft ≠ []) :
    (∀ base rsF rsC tp s i, i < base.length →
      ((((baselineGenerate base rsF rsC ft tp s).1.getD i default).fraud_type = none
        ↔ ((baselineGenerate base rsF rsC ft tp s).1.getD i default).is_fraud = false) ∧
      ∀ t, ((baselineGenerate base rsF rsC ft tp s).1.getD i default).fraud_type = some t
        → t ∈ ft)) ∧
    (∀ base noise tp s i, i < base.length →
      ((((colliderGenerate base noise ft tp s).1.getD i default).fraud_type = none
        ↔ ((colliderGenerate base noise ft tp s).1.getD i default).is_fraud = false) ∧
      ∀ t, ((colliderGenerate base noise ft tp s).1.getD i default).fraud_type = some t
        → t ∈ ft)) ∧
    (∀ base tp s i, i < base.length →
      ((((simpsonGenerate base ft tp s).1.getD i default).fraud_type = none
        ↔ ((simpsonGenerate base ft tp s).1.getD i default).is_fraud = false) ∧
      ∀ t, ((simpsonGenerate base ft tp s).1.getD i default).fraud_type = some t
        → t ∈ ft)) := by
  refine ⟨?_, ?_, ?_⟩
  · intro base rsF rsC tp s i hi
    refine labeledRows_spec base
      (drawExactFlags base.length s.remaining_fraud rsF).1
      (drawExactFlags base.length s.remaining_causal rsC).1
      ft tp
      ((fun r => { r with is_casual_fraud := r.is_causal_fraud }) ∘
        (fun r => { r with scenario := "baseline" }))
      (baselineGenerate base rsF rsC ft tp s).1 ?_ ?_ ?_
      (drawExactFlags_length _ _ _) (drawExactFlags_length _ _ _) i hi hft
    · simp only [baselineGenerate]
      rw [List.map_map]
    · intro r
      rfl
    · intro r
      rfl
  · intro base noise tp s i hi
    refine labeledRows_spec _ _ _ ft tp _ _ rfl ?_ ?_ ?_ ?_ i ?_ hft
    · intro r
      rfl
    · intro r
      rfl
    · simp
    · simp
    · simpa using hi
  · intro base tp s i hi
    refine labeledRows_spec _ _ _ ft tp _ _ rfl ?_ ?_ ?_ ?_ i ?_ hft
    · intro r
      rfl
    · intro r
      rfl
    · simp
    · simp
    · simpa using hi

/-- Witness for C10 at a concrete one-row baseline batch. -/
theorem claim_C10_fraud_type_iff_flag_witness :
    (["CARD_NOT_PRESENT"] ≠ ([] : List String) ∧ 0 < ([(default : TxRow)]).length) ∧
    ((((baselineGenerate [default] [0] [0] ["CARD_NOT_PRESENT"] [0]
        { remaining_fraud := 1, remaining_causal := 0 }).1.getD 0 default).fraud_type = none
      ↔ ((baselineGenerate [default] [0] [0] ["CARD_NOT_PRESENT"] [0]
        { remaining_fraud := 1, remaining_causal := 0 }).1.getD 0 default).is_fraud = false) ∧
      ∀ t, ((baselineGenerate [default] [0] [0] ["CARD_NOT_PRESENT"] [0]
        { remaining_fraud := 1, remaining_causal := 0 }).1.getD 0 default).fraud_type = some t
        → t ∈ ["CARD_NOT_PRESENT"]) := by
  refine ⟨⟨by decide, by decide⟩, ?_⟩
  exact (claim_C10_fraud_type_iff_flag ["CARD_NOT_PRESENT"] (by decide)).1
    [default] [0] [0] [0] { remaining_fraud := 1, remaining_causal := 0 } 0 (by decide)

/-! ## C9: duplicate-row injection -/

theorem nodup_set_of_not_mem_eraseIdx {α : Type} {l : List α} {i : Nat} {a : α}
    (hnd : l.Nodup) (ha : a ∉ l.eraseIdx i) : (l.set i a).Nodup := by
  by_cases hi : i < l.length
  · rw [List.set_eq_take_append_cons_drop, if_pos hi]
    rw [List.eraseIdx_eq_take_drop_succ] at ha
    have hnd2 : (List.take i l ++ List.drop (i + 1) l).Nodup := by
      rw [← List.eraseIdx_eq_take_drop_succ]
      exact hnd.sublist (List.eraseIdx_sublist _ _)
    rw [List.nodup_middle]
    exact List.nodup_cons.mpr ⟨ha, hnd2⟩
  · rw [List.set_eq_take_append_cons_drop, if_neg hi]
    exact hnd

/-- C9 counterexample: a two-row batch with pairwise-distinct transaction ids
where the stream makes the fresh random id collide with the other row's id —
duplicate-row injection *can* produce a duplicate transaction id, because the
fresh id is random and not checked against existing ids. -/
theorem claim_C9_counterexample :
    (([{ (default : TxRow) with transaction_id := "TX-A" },
       { (default : TxRow) with transaction_id := "00000000-00000000-00000000-00000000" }].map
        (fun r => r.transaction_id)).Nodup) ∧
    ¬ ((duplicateRows
        [{ (default : TxRow) with transaction_id := "TX-A" },
         { (default : TxRow) with transaction_id := "00000000-00000000-00000000-00000000" }]
        0 { colPick := 0, insertPos := 0, charR := 0, factor := 1, srcR := 0,
            idRs := [0, 0, 0, 0], jitterR := 0, pert := 1, dateJitterR := 0 }).map
        (fun r => r.transaction_id)).Nodup := by
  constructor
  · decide
  · decide

/-- C9 (amended): for every batch, target index and random stream,
`_duplicate_rows` leaves the row count unchanged and touches only the target
row; the target becomes the source row's values on every column except
`transaction_id` — after which its timestamp is jittered by a value in
`[-300, 300]` seconds and its amount perturbed by the `uniform(0.95, 1.05)`
factor and rounded — and it receives a fresh random transaction id; the batch's
transaction ids remain pairwise distinct *provided* the fresh id differs from
every other row's id (the source performs no such check, so a random collision
is possible — see the counterexample). -/
theorem claim_C9_duplicate_rows (df : List TxRow) (idx : Nat) (ir : IssueRands)
    (hidx : idx < df.length) :
    (duplicateRows df idx ir).length = df.length ∧
    (∀ j, j ≠ idx → (duplicateRows df idx ir).getD j default = df.getD j default) ∧
    ((duplicateRows df idx ir).getD idx default =
      (let s0 := ir.srcR % df.length
       let src := if s0 = idx then (s0 + 1) % df.length else s0
       { df.getD src default with
           transaction_id := randomTransactionId ir.idRs,
           event_time := (df.getD src default).event_time
             + rngIntegersInt (-300) 301 ir.jitterR,
           amount := round2 ((df.getD src default).amount * ir.pert) })) ∧
    (-300 ≤ rngIntegersInt (-300) 301 ir.jitterR
      ∧ rngIntegersInt (-300) 301 ir.jitterR ≤ 300) ∧
    ((df.map (fun r => r.transaction_id)).Nodup →
      randomTransactionId ir.idRs ∉ (df.eraseIdx idx).map (fun r => r.transaction_id) →
      ((duplicateRows df idx ir).map (fun r => r.transaction_id)).Nodup) := by
  have hn0 : ¬ df.length = 0 := by omega
  have hset : duplicateRows df idx ir =
      df.set idx
        (let s0 := ir.srcR % df.length
         let src := if s0 = idx then (s0 + 1) % df.length else s0
         { df.getD src default with
             transaction_id := randomTransactionId ir.idRs,
             event_time := (df.getD src default).event_time
               + rngIntegersInt (-300) 301 ir.jitterR,
             amount := round2 ((df.getD src default).amount * ir.pert) }) := by
    unfold duplicateRows
    rw [dif_neg hn0]
  refine ⟨?_, ?_, ?_, ?_, ?_⟩
  · rw [hset, List.length_set]
  · intro j hj
    rw [hset]
    rcases Nat.lt_or_ge j df.length with hjl | hjl
    · rw [List.getD_eq_getElem _ _ (by rw [List.length_set]; exact hjl),
        List.getD_eq_getElem _ _ hjl]
      exact List.getElem_set_ne (by omega) _
    · rw [List.getD_eq_default _ _ (by rw [List.length_set]; omega),
        List.getD_eq_default _ _ (by omega)]
  · rw [hset]
    rw [List.getD_eq_getElem _ _ (by rw [List.length_set]; exact hidx)]
    exact List.getElem_set_eq _
  · have h1 : (0 : Int) ≤ (ir.jitterR : Int) % (301 - -300) :=
      Int.emod_nonneg _ (by norm_num)
    have h2 : (ir.jitterR : Int) % (301 - -300) < 601 :=
      Int.emod_lt_of_pos _ (by norm_num)
    unfold rngIntegersInt
    omega
  · intro hnd hfresh
    rw [hset, List.map_set]
    apply nodup_set_of_not_mem_eraseIdx hnd
    intro hmem
    apply hfresh
    have hmap : (df.map (fun r => r.transaction_id)).eraseIdx idx
        = (df.eraseIdx idx).map (fun r => r.transaction_id) := by
      rw [List.eraseIdx_eq_take_drop_succ, List.eraseIdx_eq_take_drop_succ,
        List.map_append, List.map_take, List.map_drop]
    rw [hmap] at hmem
    exact hmem

/-- Witness for C9's amended theorem at a concrete input where the fresh id
does not collide. -/
theorem claim_C9_duplicate_rows_witness :
    (0 < ([{ (default : TxRow) with transaction_id := "TX-A" },
           { (default : TxRow) with transaction_id := "TX-B" }]).length ∧
     ([{ (default : TxRow) with transaction_id := "TX-A" },
       { (default : TxRow) with transaction_id := "TX-B" }].map
        (fun r => r.transaction_id)).Nodup ∧
     randomTransactionId [1, 2, 3, 4] ∉
       ([{ (default : TxRow) with transaction_id := "TX-A" },
         { (default : TxRow) with transaction_id := "TX-B" }].eraseIdx 0).map
          (fun r => r.transaction_id)) ∧
    ((duplicateRows
        [{ (default : TxRow) with transaction_id := "TX-A" },
         { (default : TxRow) with transaction_id := "TX-B" }]
        0 { colPick := 0, insertPos := 0, charR := 0, factor := 1, srcR := 0,
            idRs := [1, 2, 3, 4], jitterR := 0, pert := 1, dateJitterR := 0 }).map
        (fun r => r.transaction_id)).Nodup := by
  refine ⟨⟨by decide, by decide, by decide⟩, ?_⟩
  exact (claim_C9_duplicate_rows _ 0 _ (by decide)).2.2.2.2 (by decide) (by decide)

/-! ## C7: Simpson low-amount selection -/

theorem fillLeftovers_spec (count : Nat) (l : List (Nat × TxRow)) :
    ∀ acc : List Nat, acc.Nodup →
      (fillLeftovers l count acc).Nodup ∧
      (∃ suf, fillLeftovers l count acc = acc ++ suf ∧
        suf.Sublist (l.map Prod.fst)) ∧
      (acc.length < count → (fillLeftovers l count acc).length ≤ count) ∧
      (acc.length < count →
        (fillLeftovers l count acc).length = count ∨
        ((fillLeftovers l count acc).length < count ∧
          ∀ x ∈ l.map Prod.fst, x ∈ fillLeftovers l count acc)) := by
  induction l with
  | nil =>
    intro acc hnd
    refine ⟨hnd, ⟨[], by simp [fillLeftovers], by simp⟩, ?_, ?_⟩
    · intro h
      simp [fillLeftovers]
      omega
    · intro h
      right
      refine ⟨by simp [fillLeftovers, h], by simp⟩
  | cons x rest ih =>
    intro acc hnd
    by_cases hmem : x.1 ∈ acc
    · have hcont : acc.contains x.1 = true := List.elem_iff.mpr hmem
      have heq : fillLeftovers (x :: rest) count acc = fillLeftovers rest count acc := by
        rw [fillLeftovers, if_pos hcont]
      rw [heq]
      obtain ⟨h1, ⟨suf, h2, h3⟩, h4, h5⟩ := ih acc hnd
      refine ⟨h1, ⟨suf, h2, h3.trans (by simp)⟩, h4, ?_⟩
      intro hlt
      rcases h5 hlt with h | ⟨ha, hb⟩
      · exact Or.inl h
      · refine Or.inr ⟨ha, ?_⟩
        intro y hy
        simp only [List.map_cons, List.mem_cons] at hy
        rcases hy with rfl | hy
        · rw [h2]
          exact List.mem_append_left _ hmem
        · exact hb y hy
    · have hcont : ¬ acc.contains x.1 = true := by
        simpa [List.elem_iff] using hmem
      have hnd2 : (acc ++ [x.1]).Nodup := by
        refine List.Nodup.append hnd (List.nodup_singleton _) ?_
        intro a ha hb
        simp only [List.mem_singleton] at hb
        subst hb
        exact hmem ha
      by_cases hc : count ≤ (acc ++ [x.1]).length
      · have heq : fillLeftovers (x :: rest) count acc = acc ++ [x.1] := by
          rw [fillLeftovers, if_neg hcont]
          simp only [if_pos hc]
        rw [heq]
        refine ⟨hnd2, ⟨[x.1], rfl, by simp⟩, ?_, ?_⟩
        · intro h
          simp only [List.length_append, List.length_singleton]
          omega
        · intro h
          left
          simp only [List.length_append, List.length_singleton] at hc ⊢
          omega
      · have heq : fillLeftovers (x :: rest) count acc
            = fillLeftovers rest count (acc ++ [x.1]) := by
          rw [fillLeftovers, if_neg hcont]
          simp only [if_neg hc]
        rw [heq]
        obtain ⟨h1, ⟨suf, h2, h3⟩, h4, h5⟩ := ih (acc ++ [x.1]) hnd2
        have hlt2 : (acc ++ [x.1]).length < count := by
          simp only [List.length_append, List.length_singleton] at hc ⊢
          omega
        refine ⟨h1, ⟨x.1 :: suf, by rw [h2, List.append_assoc]; rfl, ?_⟩, ?_, ?_⟩
        · simpa using List.Sublist.cons₂ x.1 h3
        · intro _
          exact h4 hlt2
        · intro _
          rcases h5 hlt2 with h | ⟨ha, hb⟩
          · exact Or.inl h
          · refine Or.inr ⟨ha, ?_⟩
            intro y hy
            simp only [List.map_cons, List.mem_cons] at hy
            rcases hy with rfl | hy
            · rw [h2]
              exact List.mem_append_left _ (List.mem_append_right _ (by simp))
            · exact hb y hy

theorem fillLeftovers_le_spec (count : Nat) (l : List (Nat × TxRow)) :
    ∀ acc : List Nat, acc.Nodup → List.Pairwise amtLe l →
      ∀ i ∈ fillLeftovers l count acc, i ∉ acc →
        ∀ pj ∈ l, pj.1 ∉ fillLeftovers l count acc →
          ∃ pi ∈ l, pi.1 = i ∧ amtLe pi pj := by
  induction l with
  | nil =>
    intro acc _ _ i _ _ pj hpj
    simp at hpj
  | cons x rest ih =>
    intro acc hnd hpw i hi hni pj hpj hnj
    have hpwt : List.Pairwise amtLe rest := hpw.of_cons
    have hhead : ∀ b ∈ rest, amtLe x b := fun b hb => List.rel_of_pairwise_cons hpw hb
    by_cases hmem : x.1 ∈ acc
    · have hcont : acc.contains x.1 = true := List.elem_iff.mpr hmem
      have heq : fillLeftovers (x :: rest) count acc = fillLeftovers rest count acc := by
        rw [fillLeftovers, if_pos hcont]
      rw [heq] at hi hnj
      rcases List.mem_cons.mp hpj with rfl | hpj2
      · exfalso
        obtain ⟨suf, hpre, _⟩ := (fillLeftovers_spec count rest acc hnd).2.1
        exact hnj (hpre ▸ List.mem_append_left _ hmem)
      · obtain ⟨pi, hpi, hpieq, hple⟩ := ih acc hnd hpwt i hi hni pj hpj2 hnj
        exact ⟨pi, List.mem_cons_of_mem _ hpi, hpieq, hple⟩
    · have hcont : ¬ acc.contains x.1 = true := by
        simpa [List.elem_iff] using hmem
      have hnd2 : (acc ++ [x.1]).Nodup := by
        refine List.Nodup.append hnd (List.nodup_singleton _) ?_
        intro a ha hb
        simp only [List.mem_singleton] at hb
        subst hb
        exact hmem ha
      by_cases hc : count ≤ (acc ++ [x.1]).length
      · have heq : fillLeftovers (x :: rest) count acc = acc ++ [x.1] := by
          rw [fillLeftovers, if_neg hcont]
          simp only [if_pos hc]
        rw [heq] at hi hnj
        have hix : i = x.1 := by
          rcases List.mem_append.mp hi with h | h
          · exact absurd h hni
          · simpa using h
        rcases List.mem_cons.mp hpj with rfl | hpj2
        · exact absurd (List.mem_append_right _ (by simp)) hnj
        · exact ⟨x, List.mem_cons_self _ _, hix.symm, hhead pj hpj2⟩
      · have heq : fillLeftovers (x :: rest) count acc
            = fillLeftovers rest count (acc ++ [x.1]) := by
          rw [fillLeftovers, if_neg hcont]
          simp only [if_neg hc]
        rw [heq] at hi hnj
        have hxin : x.1 ∈ fillLeftovers rest count (acc ++ [x.1]) := by
          obtain ⟨suf, hpre, _⟩ := (fillLeftovers_spec count rest (acc ++ [x.1]) hnd2).2.1
          exact hpre ▸ List.mem_append_left _ (List.mem_append_right _ (by simp))
        rcases List.mem_cons.mp hpj with rfl | hpj2
        · exact absurd hxin hnj
        · by_cases hix : i = x.1
          · exact ⟨x, List.mem_cons_self _ _, hix.symm, hhead pj hpj2⟩
          · have hni2 : i ∉ acc ++ [x.1] := by
              intro h
              rcases List.mem_append.mp h with h | h
              · exact hni h
              · exact hix (by simpa using h)
            obtain ⟨pi, hpi, hpieq, hple⟩ := ih (acc ++ [x.1]) hnd2 hpwt i hi hni2 pj hpj2 hnj
            exact ⟨pi, List.mem_cons_of_mem _ hpi, hpieq, hple⟩

/-- An indexed row drawn from `df.enum` is `(i, df[i])`. -/
theorem mem_enum_pair {df : List TxRow} {p : Nat × TxRow} (h : p ∈ df.enum) :
    p.1 < df.length ∧ p.2 = df.getD p.1 default := by
  rw [List.mem_enum_iff_getElem?] at h
  have hlt : p.1 < df.length := by
    by_contra hge
    rw [List.getElem?_eq_none (by omega)] at h
    exact Option.noConfusion h
  refine ⟨hlt, ?_⟩
  rw [List.getElem?_eq_getElem hlt] at h
  rw [List.getD_eq_getElem _ _ hlt]
  exact (Option.some.inj h).symm

theorem sortByAmount_perm (l : List (Nat × TxRow)) : (sortByAmount l).Perm l :=
  List.perm_insertionSort _ _

theorem sortByAmount_sorted (l : List (Nat × TxRow)) :
    List.Sorted amtLe (sortByAmount l) :=
  List.sorted_insertionSort _ _

theorem nodup_fst_of_sublist_enum {df : List TxRow} {l : List (Nat × TxRow)}
    (h : l.Sublist df.enum) : (l.map Prod.fst).Nodup := by
  have hsub := h.map Prod.fst
  rw [List.enum_map_fst] at hsub
  exact (List.nodup_range _).sublist hsub

/-- Every index contributed by the group of region label `g` is a valid row
index whose row carries region `g`, and the pair witnessing it is in the
group's sorted prefix. -/
theorem contrib_mem_spec {df : List TxRow} {g : String} {k : Nat} {a : Nat}
    (h : a ∈ ((sortByAmount (df.enum.filter (fun p => p.2.region == g))).take k).map
      Prod.fst) :
    a < df.length ∧ (df.getD a default).region = g := by
  obtain ⟨p, hp, rfl⟩ := List.mem_map.mp h
  have hp2 : p ∈ sortByAmount (df.enum.filter (fun p => p.2.region == g)) :=
    List.mem_of_mem_take hp
  have hp3 : p ∈ df.enum.filter (fun p => p.2.region == g) :=
    (sortByAmount_perm _).mem_iff.mp hp2
  have hp4 := List.mem_filter.mp hp3
  obtain ⟨hlt, hpair⟩ := mem_enum_pair hp4.1
  refine ⟨hlt, ?_⟩
  rw [← hpair]
  exact beq_iff_eq.mp hp4.2

theorem perRegionSel_nodup (df : List TxRow) (count : Nat) :
    (perRegionSel df count).Nodup := by
  unfold perRegionSel
  rw [List.nodup_flatMap]
  constructor
  · intro grp hgrp
    simp only [regionGroups, List.mem_map] at hgrp
    obtain ⟨g, _, rfl⟩ := hgrp
    have hnf : ((df.enum.filter (fun p => p.2.region == g)).map Prod.fst).Nodup :=
      nodup_fst_of_sublist_enum (List.filter_sublist _)
    have hns : ((sortByAmount (df.enum.filter (fun p => p.2.region == g))).map
        Prod.fst).Nodup :=
      (((sortByAmount_perm _).map Prod.fst).nodup_iff).mpr hnf
    exact ((List.take_sublist _ _).map _).nodup hns
  · unfold regionGroups
    rw [List.pairwise_map]
    refine List.Pairwise.imp ?_ (List.nodup_dedup _)
    intro g1 g2 hne a ha1 ha2
    have h1 := contrib_mem_spec ha1
    have h2 := contrib_mem_spec ha2
    exact hne (h1.2 ▸ h2.2)

theorem perRegionSel_lt (df : List TxRow) (count : Nat) :
    ∀ a ∈ perRegionSel df count, a < df.length := by
  intro a ha
  unfold perRegionSel at ha
  obtain ⟨grp, hgrp, hmem⟩ := List.mem_flatMap.mp ha
  simp only [regionGroups, List.mem_map] at hgrp
  obtain ⟨g, _, rfl⟩ := hgrp
  exact (contrib_mem_spec hmem).1

theorem length_le_of_nodup_lt {l : List Nat} {n : Nat} (hnd : l.Nodup)
    (hb : ∀ x ∈ l, x < n) : l.length ≤ n := by
  rw [← List.toFinset_card_of_nodup hnd]
  have hsub : l.toFinset ⊆ Finset.range n := by
    intro x hx
    exact Finset.mem_range.mpr (hb x (List.mem_toFinset.mp hx))
  simpa using Finset.card_le_card hsub

theorem length_eq_of_nodup_lt_cover {l : List Nat} {n : Nat} (hnd : l.Nodup)
    (hb : ∀ x ∈ l, x < n) (hcov : ∀ x, x < n → x ∈ l) : l.length = n := by
  rw [← List.toFinset_card_of_nodup hnd]
  have hset : l.toFinset = Finset.range n := by
    ext x
    simp only [List.mem_toFinset, Finset.mem_range]
    exact ⟨hb x, hcov x⟩
  rw [hset]
  simp

/-- Per-region minimality: an index selected in the per-region phase has
amount no greater than any same-region index left unselected by that phase. -/
theorem perRegionSel_min (df : List TxRow) (count : Nat) :
    ∀ i ∈ perRegionSel df count, ∀ j, j < df.length →
      (df.getD j default).region = (df.getD i default).region →
      j ∉ perRegionSel df count →
      (df.getD i default).amount ≤ (df.getD j default).amount := by
  intro i hi j hj hreg hnj
  obtain ⟨grp, hgrp, hmem⟩ := List.mem_flatMap.mp hi
  simp only [regionGroups, List.mem_map] at hgrp
  obtain ⟨g, hgmem, rfl⟩ := hgrp
  obtain ⟨pi, hpitake, hpi1⟩ := List.mem_map.mp hmem
  have hpisorted : pi ∈ sortByAmount (df.enum.filter (fun p => p.2.region == g)) :=
    List.mem_of_mem_take hpitake
  have hpifilter := List.mem_filter.mp ((sortByAmount_perm _).mem_iff.mp hpisorted)
  obtain ⟨hpilt, hpipair⟩ := mem_enum_pair hpifilter.1
  have hgi : (df.getD i default).region = g := by
    rw [← hpi1, ← hpipair]
    exact beq_iff_eq.mp hpifilter.2
  have hjenum : (j, df.getD j default) ∈ df.enum := by
    rw [List.mk_mem_enum_iff_getElem?, List.getElem?_eq_getElem hj,
      List.getD_eq_getElem _ _ hj]
  have hjfilter : (j, df.getD j default) ∈ df.enum.filter (fun p => p.2.region == g) := by
    refine List.mem_filter.mpr ⟨hjenum, ?_⟩
    exact beq_iff_eq.mpr (by rw [hreg, hgi])
  have hjsorted : (j, df.getD j default)
      ∈ sortByAmount (df.enum.filter (fun p => p.2.region == g)) :=
    (sortByAmount_perm _).mem_iff.mpr hjfilter
  rw [← List.take_append_drop
    (min (perRegionQuota df count) (df.enum.filter (fun p => p.2.region == g)).length)
    (sortByAmount (df.enum.filter (fun p => p.2.region == g)))] at hjsorted
  rcases List.mem_append.mp hjsorted with hjt | hjd
  · exfalso
    apply hnj
    unfold perRegionSel
    refine List.mem_flatMap.mpr ⟨df.enum.filter (fun p => p.2.region == g), ?_, ?_⟩
    · simp only [regionGroups, List.mem_map]
      exact ⟨g, hgmem, rfl⟩
    · exact List.mem_map.mpr ⟨(j, df.getD j default), hjt, rfl⟩
  · have hle := (sortByAmount_sorted
      (df.enum.filter (fun p => p.2.region == g))).rel_of_mem_take_of_mem_drop hpitake hjd
    unfold amtLe at hle
    rw [hpipair, hpi1] at hle
    exact hle

/-- Full behaviour of `_select_low_amount_indices` (shared helper): no index
selected twice, exactly `min(count, n)` valid indices selected, the per-region
phase takes each region's lowest-amount rows, and leftovers are the globally
lowest-amount not-yet-selected rows in ascending amount order. -/
theorem selectLow_full_spec (df : List TxRow) (count : Nat) :
    (selectLowAmountIndices df count).Nodup ∧
    (selectLowAmountIndices df count).length = min count df.length ∧
    (∀ i ∈ selectLowAmountIndices df count, i < df.length) ∧
    (∀ i ∈ perRegionSel df count, ∀ j, j < df.length →
      (df.getD j default).region = (df.getD i default).region →
      j ∉ perRegionSel df count →
      (df.getD i default).amount ≤ (df.getD j default).amount) ∧
    ((perRegionSel df count).length < count →
      (∀ i ∈ selectLowAmountIndices df count, i ∉ perRegionSel df count →
        ∀ j, j < df.length → j ∉ selectLowAmountIndices df count →
          (df.getD i default).amount ≤ (df.getD j default).amount) ∧
      List.Pairwise (fun a b => (df.getD a default).amount ≤ (df.getD b default).amount)
        ((selectLowAmountIndices df count).drop (perRegionSel df count).length)) := by
  have hPRnd := perRegionSel_nodup df count
  have hPRlt := perRegionSel_lt df count
  have hPRlen : (perRegionSel df count).length ≤ df.length :=
    length_le_of_nodup_lt hPRnd hPRlt
  have hsortall_perm : (sortByAmount df.enum).Perm df.enum := sortByAmount_perm _
  have hsortall_fst : ∀ x ∈ (sortByAmount df.enum).map Prod.fst, x < df.length := by
    intro x hx
    obtain ⟨p, hp, rfl⟩ := List.mem_map.mp hx
    exact (mem_enum_pair (hsortall_perm.mem_iff.mp hp)).1
  have hsortall_cover : ∀ x, x < df.length → x ∈ (sortByAmount df.enum).map Prod.fst := by
    intro x hx
    refine List.mem_map.mpr ⟨(x, df.getD x default), ?_, rfl⟩
    refine hsortall_perm.mem_iff.mpr ?_
    rw [List.mk_mem_enum_iff_getElem?, List.getElem?_eq_getElem hx,
      List.getD_eq_getElem _ _ hx]
  by_cases hcase : (perRegionSel df count).length < count
  · -- under-fill: leftovers phase runs
    have hsel : selectLowAmountIndices df count
        = (fillLeftovers (sortByAmount df.enum) count (perRegionSel df count)).take count := by
      unfold selectLowAmountIndices
      simp only [if_pos hcase]
    obtain ⟨hFnd, ⟨suf, hFpre, hFsub⟩, hFle, hFalt⟩ :=
      fillLeftovers_spec count (sortByAmount df.enum) (perRegionSel df count) hPRnd
    have hFtake : (fillLeftovers (sortByAmount df.enum) count (perRegionSel df count)).take
        count = fillLeftovers (sortByAmount df.enum) count (perRegionSel df count) :=
      List.take_of_length_le (hFle hcase)
    have hsel2 : selectLowAmountIndices df count
        = fillLeftovers (sortByAmount df.enum) count (perRegionSel df count) := by
      rw [hsel, hFtake]
    have hselb : ∀ x ∈ selectLowAmountIndices df count, x < df.length := by
      intro x hx
      rw [hsel2, hFpre] at hx
      rcases List.mem_append.mp hx with hx | hx
      · exact hPRlt x hx
      · exact hsortall_fst x (hFsub.mem hx)
    have hselb2 : ∀ x ∈ fillLeftovers (sortByAmount df.enum) count (perRegionSel df count),
        x < df.length := by
      rw [← hsel2]
      exact hselb
    refine ⟨hsel2 ▸ hFnd, ?_, hselb, perRegionSel_min df count, ?_⟩
    · rcases hFalt hcase with hlen | ⟨hlt, hcov⟩
      · rw [hsel2, hlen]
        have hcle : count ≤ df.length := by
          have := length_le_of_nodup_lt hFnd hselb2
          omega
        omega
      · have hcov2 : ∀ x, x < df.length →
            x ∈ fillLeftovers (sortByAmount df.enum) count (perRegionSel df count) := by
          intro x hx
          exact hcov x (hsortall_cover x hx)
        have hlenn := length_eq_of_nodup_lt_cover hFnd hselb2 hcov2
        rw [hsel2, hlenn]
        omega
    · intro _
      constructor
      · intro i hi hni j hj hnj
        have hsorted_pw : List.Pairwise amtLe (sortByAmount df.enum) :=
          sortByAmount_sorted df.enum
        have hjp : (j, df.getD j default) ∈ sortByAmount df.enum := by
          refine hsortall_perm.mem_iff.mpr ?_
          rw [List.mk_mem_enum_iff_getElem?, List.getElem?_eq_getElem hj,
            List.getD_eq_getElem _ _ hj]
        rw [hsel2] at hi hnj
        obtain ⟨pi, hpimem, hpi1, hple⟩ := fillLeftovers_le_spec count (sortByAmount df.enum)
          (perRegionSel df count) hPRnd hsorted_pw i hi hni (j, df.getD j default) hjp hnj
        obtain ⟨_, hpipair⟩ := mem_enum_pair (hsortall_perm.mem_iff.mp hpimem)
        unfold amtLe at hple
        rw [hpipair, hpi1] at hple
        exact hple
      · have hdrop : (selectLowAmountIndices df count).drop (perRegionSel df count).length
            = suf := by
          rw [hsel2, hFpre]
          simp
        rw [hdrop]
        have hpw_pairs : List.Pairwise
            (fun p q : Nat × TxRow =>
              (df.getD p.1 default).amount ≤ (df.getD q.1 default).amount)
            (sortByAmount df.enum) := by
          refine List.Pairwise.imp_of_mem ?_ (sortByAmount_sorted df.enum)
          intro a b ha hb hab
          obtain ⟨_, hap⟩ := mem_enum_pair (hsortall_perm.mem_iff.mp ha)
          obtain ⟨_, hbp⟩ := mem_enum_pair (hsortall_perm.mem_iff.mp hb)
          unfold amtLe at hab
          rw [hap, hbp] at hab
          exact hab
        have hpw_fst : List.Pairwise
            (fun a b : Nat => (df.getD a default).amount ≤ (df.getD b default).amount)
            ((sortByAmount df.enum).map Prod.fst) := by
          rw [List.pairwise_map]
          exact hpw_pairs
        exact List.Pairwise.sublist hFsub hpw_fst
  · -- the per-region phase alone fills the request
    have hsel : selectLowAmountIndices df count = (perRegionSel df count).take count := by
      unfold selectLowAmountIndices
      simp only [if_neg hcase]
    have hclen : count ≤ (perRegionSel df count).length := by omega
    refine ⟨hsel ▸ ((List.take_sublist _ _).nodup hPRnd), ?_, ?_,
      perRegionSel_min df count, ?_⟩
    · rw [hsel, List.length_take]
      omega
    · intro i hi
      rw [hsel] at hi
      exact hPRlt i (List.mem_of_mem_take hi)
    · intro h
      omega

/-- C7: `_select_low_amount_indices` never selects an index twice, selects
exactly `min(count, n)` valid indices in total, its per-region phase takes each
region's lowest-amount rows (up to the per-region quota capped by group size),
and whenever the per-region quotas under-fill `count`, the remaining selections
are globally lowest-amount not-yet-selected rows, appended in ascending amount
order. -/
theorem claim_C7_select_low_amount (df : List TxRow) (count : Nat) :
    (selectLowAmountIndices df count).Nodup ∧
    (selectLowAmountIndices df count).length = min count df.length ∧
    (∀ i ∈ selectLowAmountIndices df count, i < df.length) ∧
    (∀ i ∈ perRegionSel df count, ∀ j, j < df.length →
      (df.getD j default).region = (df.getD i default).region →
      j ∉ perRegionSel df count →
      (df.getD i default).amount ≤ (df.getD j default).amount) ∧
    ((perRegionSel df count).length < count →
      (∀ i ∈ selectLowAmountIndices df count, i ∉ perRegionSel df count →
        ∀ j, j < df.length → j ∉ selectLowAmountIndices df count →
          (df.getD i default).amount ≤ (df.getD j default).amount) ∧
      List.Pairwise (fun a b => (df.getD a default).amount ≤ (df.getD b default).amount)
        ((selectLowAmountIndices df count).drop (perRegionSel df count).length)) :=
  selectLow_full_spec df count

/-- A concrete four-row, two-region batch exercising both selection phases. -/
def sampleSimpsonDf : List TxRow :=
  [{ (default : TxRow) with region := "NORTH", amount := 5 },
   { (default : TxRow) with region := "NORTH", amount := 1 },
   { (default : TxRow) with region := "SOUTH", amount := 3 },
   { (default : TxRow) with region := "SOUTH", amount := 4 }]

/-- Witness for C7 on `sampleSimpsonDf` with `count = 3` (the per-region phase
selects indices 1 and 2, the leftover phase adds index 3). -/
theorem claim_C7_select_low_amount_witness :
    (selectLowAmountIndices sampleSimpsonDf 3).Nodup ∧
    (selectLowAmountIndices sampleSimpsonDf 3).length = min 3 sampleSimpsonDf.length ∧
    (1 ∈ perRegionSel sampleSimpsonDf 3 ∧ 0 < sampleSimpsonDf.length ∧
      (sampleSimpsonDf.getD 0 default).region = (sampleSimpsonDf.getD 1 default).region ∧
      0 ∉ perRegionSel sampleSimpsonDf 3 ∧
      (sampleSimpsonDf.getD 1 default).amount ≤ (sampleSimpsonDf.getD 0 default).amount) ∧
    ((perRegionSel sampleSimpsonDf 3).length < 3 ∧
      3 ∈ selectLowAmountIndices sampleSimpsonDf 3 ∧
      3 ∉ perRegionSel sampleSimpsonDf 3 ∧
      0 ∉ selectLowAmountIndices sampleSimpsonDf 3 ∧
      (sampleSimpsonDf.getD 3 default).amount ≤ (sampleSimpsonDf.getD 0 default).amount) := by
  refine ⟨(claim_C7_select_low_amount sampleSimpsonDf 3).1,
    (claim_C7_select_low_amount sampleSimpsonDf 3).2.1, ?_, ?_⟩
  · refine ⟨by decide, by decide, by decide, by decide, ?_⟩
    exact (claim_C7_select_low_amount sampleSimpsonDf 3).2.2.2.1 1 (by decide) 0
      (by decide) (by decide) (by decide)
  · refine ⟨by decide, by decide, by decide, by decide, ?_⟩
    exact ((claim_C7_select_low_amount sampleSimpsonDf 3).2.2.2.2 (by decide)).1 3
      (by decide) (by decide) 0 (by decide) (by decide)

/-! ## C1: scenario quota invariants across repeated `generate` calls -/

/-- Rows of a batch flagged `is_fraud`. -/
def countFraud (df : List TxRow) : Nat := (df.filter (fun r => r.is_fraud)).length

/-- Rows of a batch flagged `is_causal_fraud`. -/
def countCausal (df : List TxRow) : Nat :=
  (df.filter (fun r => r.is_causal_fraud)).length

theorem countFraud_eq_count (df : List TxRow) :
    countFraud df = (df.map (fun r => r.is_fraud)).count true := by
  unfold countFraud
  rw [List.count_eq_countP, List.countP_map, ← List.countP_eq_length_filter]
  apply List.countP_congr
  intro r _
  simp [Function.comp]

theorem countCausal_eq_count (df : List TxRow) :
    countCausal df = (df.map (fun r => r.is_causal_fraud)).count true := by
  unfold countCausal
  rw [List.count_eq_countP, List.countP_map, ← List.countP_eq_length_filter]
  apply List.countP_congr
  intro r _
  simp [Function.comp]

/-- The flag columns of the shared label-overlay pipeline read back exactly the
flag vectors that were zipped in. -/
theorem map_flags_of_labeled (h : TxRow → TxRow)
    (hhf : ∀ r, (h r).is_fraud = r.is_fraud)
    (hhc : ∀ r, (h r).is_causal_fraud = r.is_causal_fraud) :
    ∀ (df1 : List TxRow) (flagsF flagsC : List Bool) (types : List (Option String)),
      flagsF.length = df1.length → flagsC.length = df1.length →
      types.length = df1.length →
      ((List.zipWith (fun r t => { r with fraud_type := t })
          (List.zipWith (fun r f => { r with is_causal_fraud := f })
            (List.zipWith (fun r f => { r with is_fraud := f }) df1 flagsF) flagsC)
          types).map h).map (fun r => r.is_fraud) = flagsF ∧
      ((List.zipWith (fun r t => { r with fraud_type := t })
          (List.zipWith (fun r f => { r with is_causal_fraud := f })
            (List.zipWith (fun r f => { r with is_fraud := f }) df1 flagsF) flagsC)
          types).map h).map (fun r => r.is_causal_fraud) = flagsC := by
  intro df1
  induction df1 with
  | nil =>
    intro flagsF flagsC types hF hC hT
    rw [List.length_eq_zero.mp hF, List.length_eq_zero.mp hC, List.length_eq_zero.mp hT]
    simp
  | cons r df ih =>
    intro flagsF flagsC types hF hC hT
    cases flagsF with
    | nil => simp at hF
    | cons f fs =>
      cases flagsC with
      | nil => simp at hC
      | cons c cs =>
        cases types with
        | nil => simp at hT
        | cons t ts =>
          simp only [List.zipWith_cons_cons, List.map_cons]
          have hF2 : fs.length = df.length := by simpa using hF
          have hC2 : cs.length = df.length := by simpa using hC
          have hT2 : ts.length = df.length := by simpa using hT
          obtain ⟨ih1, ih2⟩ := ih fs cs ts hF2 hC2 hT2
          constructor
          · rw [ih1, hhf]
          · rw [ih2, hhc]

theorem argsortDesc_facts (keys : List ℚ) :
    (argsortDesc keys).length = keys.length ∧ (argsortDesc keys).Nodup ∧
    ∀ x ∈ argsortDesc keys, x < keys.length := by
  unfold argsortDesc
  have hperm : ((List.range keys.length).insertionSort
      (fun i j => keys.getD i 0 ≤ keys.getD j 0)).Perm (List.range keys.length) :=
    List.perm_insertionSort _ _
  refine ⟨?_, ?_, ?_⟩
  · simp [hperm.length_eq]
  · rw [List.nodup_reverse]
    exact hperm.nodup_iff.mpr (List.nodup_range _)
  · intro x hx
    rw [List.mem_reverse] at hx
    exact List.mem_range.mp (hperm.mem_iff.mp hx)

theorem colliderSelect_spec (latent : List ℚ) (n : Nat) (s : QuotaState)
    (hlen : latent.length = n) (hf : 0 ≤ s.remaining_fraud) :
    ((colliderSelect latent n s).1.length : Int) = min (n : Int) s.remaining_fraud ∧
    (colliderSelect latent n s).1.Nodup ∧
    (∀ x ∈ (colliderSelect latent n s).1, x < n) ∧
    (colliderSelect latent n s).2.remaining_fraud
      = s.remaining_fraud - min (n : Int) s.remaining_fraud ∧
    (colliderSelect latent n s).2.remaining_causal
      = s.remaining_causal - min (n : Int) s.remaining_fraud := by
  obtain ⟨hal, hand, hab⟩ := argsortDesc_facts latent
  unfold colliderSelect
  by_cases hd : 0 < min s.remaining_fraud (n : Int)
  · simp only [if_pos hd]
    refine ⟨?_, ?_, ?_, ?_, ?_⟩
    · simp only [List.length_take, hal, hlen]
      omega
    · exact (List.take_sublist _ _).nodup hand
    · intro x hx
      exact hlen ▸ hab x (List.mem_of_mem_take hx)
    · omega
    · omega
  · simp only [if_neg hd]
    refine ⟨?_, List.nodup_nil, by simp, ?_, ?_⟩
    · simp only [List.length_nil, Nat.cast_zero]
      omega
    · omega
    · omega

theorem simpsonSelect_spec (df1 : List TxRow) (n : Nat) (s : QuotaState)
    (hlen : df1.length = n) (hf : 0 ≤ s.remaining_fraud) :
    ((simpsonSelect df1 n s).1.length : Int) = min (n : Int) s.remaining_fraud ∧
    (simpsonSelect df1 n s).1.Nodup ∧
    (∀ x ∈ (simpsonSelect df1 n s).1, x < n) ∧
    (simpsonSelect df1 n s).2.remaining_fraud
      = s.remaining_fraud - min (n : Int) s.remaining_fraud ∧
    (simpsonSelect df1 n s).2.remaining_causal
      = s.remaining_causal - min (n : Int) s.remaining_fraud := by
  obtain ⟨hsnd, hslen, hsb, _, _⟩ :=
    selectLow_full_spec df1 (min s.remaining_fraud (n : Int)).toNat
  unfold simpsonSelect
  by_cases hd : 0 < min s.remaining_fraud (n : Int)
  · simp only [if_pos hd]
    refine ⟨?_, hsnd, ?_, ?_, ?_⟩
    · rw [hslen, hlen]
      omega
    · intro x hx
      exact hlen ▸ hsb x hx
    · omega
    · omega
  · simp only [if_neg hd]
    refine ⟨?_, List.nodup_nil, by simp, ?_, ?_⟩
    · simp only [List.length_nil, Nat.cast_zero]
      omega
    · omega
    · omega

/-- One `BaselineFraudScenario.generate` call: flagged-row counts and counter
updates, on nonnegative counters. -/
theorem baselineGenerate_call_spec (base : List TxRow) (rsF rsC : List Nat)
    (ft : List String) (tp : List Nat) (s : QuotaState)
    (hf : 0 ≤ s.remaining_fraud) (hc : 0 ≤ s.remaining_causal) :
    (countFraud (baselineGenerate base rsF rsC ft tp s).1 : Int)
        = min (base.length : Int) s.remaining_fraud ∧
    (countCausal (baselineGenerate base rsF rsC ft tp s).1 : Int)
        = min (base.length : Int) s.remaining_causal ∧
    (baselineGenerate base rsF rsC ft tp s).2.remaining_fraud
        = s.remaining_fraud - min (base.length : Int) s.remaining_fraud ∧
    (baselineGenerate base rsF rsC ft tp s).2.remaining_causal
        = s.remaining_causal - min (base.length : Int) s.remaining_causal := by
  have hrepr : (baselineGenerate base rsF rsC ft tp s).1
      = (List.zipWith (fun r t => { r with fraud_type := t })
          (List.zipWith (fun r f => { r with is_causal_fraud := f })
            (List.zipWith (fun r f => { r with is_fraud := f }) base
              (drawExactFlags base.length s.remaining_fraud rsF).1)
            (drawExactFlags base.length s.remaining_causal rsC).1)
          (assignFraudTypes (drawExactFlags base.length s.remaining_fraud rsF).1 ft tp)).map
        ((fun r => { r with is_casual_fraud := r.is_causal_fraud }) ∘
          (fun r => { r with scenario := "baseline" })) := by
    simp only [baselineGenerate]
    rw [List.map_map]
  obtain ⟨hm1, hm2⟩ := map_flags_of_labeled
    ((fun r => { r with is_casual_fraud := r.is_causal_fraud }) ∘
      (fun r => { r with scenario := "baseline" }))
    (by intro r; rfl) (by intro r; rfl) base
    (drawExactFlags base.length s.remaining_fraud rsF).1
    (drawExactFlags base.length s.remaining_causal rsC).1
    (assignFraudTypes (drawExactFlags base.length s.remaining_fraud rsF).1 ft tp)
    (drawExactFlags_length _ _ _) (drawExactFlags_length _ _ _)
    (by rw [assignFraudTypes_length, drawExactFlags_length])
  obtain ⟨hcf, hsf⟩ := drawExactFlags_spec base.length s.remaining_fraud rsF hf
  obtain ⟨hcc, hsc⟩ := drawExactFlags_spec base.length s.remaining_causal rsC hc
  refine ⟨?_, ?_, ?_, ?_⟩
  · rw [countFraud_eq_count, hrepr, hm1]
    exact hcf
  · rw [countCausal_eq_count, hrepr, hm2]
    exact hcc
  · show (drawExactFlags base.length s.remaining_fraud rsF).2 = _
    exact hsf
  · show (drawExactFlags base.length s.remaining_causal rsC).2 = _
    exact hsc

/-- One `CausalColliderScenario.generate` call: both flag counts equal the
fraud take `min(n, remaining_fraud)`, and both counters are decremented by that
same take. -/
theorem colliderGenerate_call_spec (base : List TxRow) (noise : List ℚ)
    (ft : List String) (tp : List Nat) (s : QuotaState)
    (hf : 0 ≤ s.remaining_fraud) :
    (countFraud (colliderGenerate base noise ft tp s).1 : Int)
        = min (base.length : Int) s.remaining_fraud ∧
    (countCausal (colliderGenerate base noise ft tp s).1 : Int)
        = min (base.length : Int) s.remaining_fraud ∧
    (colliderGenerate base noise ft tp s).2.remaining_fraud
        = s.remaining_fraud - min (base.length : Int) s.remaining_fraud ∧
    (colliderGenerate base noise ft tp s).2.remaining_causal
        = s.remaining_causal - min (base.length : Int) s.remaining_fraud := by
  have hlatlen : (colliderLatent (base.map
      (fun r => { r with scenario := "causal_collider" })) noise).length
      = base.length := by
    simp [colliderLatent]
  obtain ⟨hsellen, hselnd, hselb, hself, hselc⟩ := colliderSelect_spec
    (colliderLatent (base.map (fun r => { r with scenario := "causal_collider" })) noise)
    base.length s hlatlen hf
  have hflags : (((List.range base.length).map (fun i => decide (i ∈ (colliderSelect
      (colliderLatent (base.map (fun r => { r with scenario := "causal_collider" })) noise)
      base.length s).1))).count true : Int)
      = min (base.length : Int) s.remaining_fraud := by
    rw [count_true_flags base.length _ hselnd hselb]
    exact hsellen
  obtain ⟨hm1, hm2⟩ := map_flags_of_labeled
    (fun r => { r with is_casual_fraud := r.is_causal_fraud })
    (by intro r; rfl) (by intro r; rfl)
    ((base.map (fun r => { r with scenario := "causal_collider" })).enum.map
      (fun p =>
        if npQuantile (colliderLatent (base.map
            (fun r => { r with scenario := "causal_collider" })) noise) (7/10)
            < (colliderLatent (base.map
              (fun r => { r with scenario := "causal_collider" })) noise).getD p.1 0
        then { p.2 with amount := round2 (p.2.amount * (7/10)) }
        else { p.2 with amount := round2 (p.2.amount * (6/5)) }))
    ((List.range base.length).map (fun i => decide (i ∈ (colliderSelect
      (colliderLatent (base.map (fun r => { r with scenario := "causal_collider" })) noise)
      base.length s).1)))
    ((List.range base.length).map (fun i => decide (i ∈ (colliderSelect
      (colliderLatent (base.map (fun r => { r with scenario := "causal_collider" })) noise)
      base.length s).1)))
    (assignFraudTypes ((List.range base.length).map (fun i => decide (i ∈ (colliderSelect
      (colliderLatent (base.map (fun r => { r with scenario := "causal_collider" })) noise)
      base.length s).1))) ft tp)
    (by simp) (by simp)
    (by rw [assignFraudTypes_length]; simp)
  have hrepr : (colliderGenerate base noise ft tp s).1
      = (List.zipWith (fun r t => { r with fraud_type := t })
          (List.zipWith (fun r f => { r with is_causal_fraud := f })
            (List.zipWith (fun r f => { r with is_fraud := f })
              ((base.map (fun r => { r with scenario := "causal_collider" })).enum.map
                (fun p =>
                  if npQuantile (colliderLatent (base.map
                      (fun r => { r with scenario := "causal_collider" })) noise) (7/10)
                      < (colliderLatent (base.map
                        (fun r => { r with scenario := "causal_collider" })) noise).getD p.1 0
                  then { p.2 with amount := round2 (p.2.amount * (7/10)) }
                  else { p.2 with amount := round2 (p.2.amount * (6/5)) }))
              ((List.range base.length).map (fun i => decide (i ∈ (colliderSelect
      (colliderLatent (base.map (fun r => { r with scenario := "causal_collider" })) noise)
      base.length s).1))))
            ((List.range base.length).map (fun i => decide (i ∈ (colliderSelect
      (colliderLatent (base.map (fun r => { r with scenario := "causal_collider" })) noise)
      base.length s).1))))
          (assignFraudTypes ((List.range base.length).map (fun i => decide (i ∈ (colliderSelect
      (colliderLatent (base.map (fun r => { r with scenario := "causal_collider" })) noise)
      base.length s).1))) ft tp)).map
        (fun r => { r with is_casual_fraud := r.is_causal_fraud }) := by
    simp only [colliderGenerate]
  refine ⟨?_, ?_, ?_, ?_⟩
  · rw [countFraud_eq_count, hrepr, hm1]
    exact hflags
  · rw [countCausal_eq_count, hrepr, hm2]
    exact hflags
  · exact hself
  · exact hselc

/-- One `CausalSimpsonScenario.generate` call: both flag counts equal the fraud
take `min(n, remaining_fraud)`, and both counters are decremented by that same
take. -/
theorem simpsonGenerate_call_spec (base : List TxRow) (ft : List String)
    (tp : List Nat) (s : QuotaState) (hf : 0 ≤ s.remaining_fraud) :
    (countFraud (simpsonGenerate base ft tp s).1 : Int)
        = min (base.length : Int) s.remaining_fraud ∧
    (countCausal (simpsonGenerate base ft tp s).1 : Int)
        = min (base.length : Int) s.remaining_fraud ∧
    (simpsonGenerate base ft tp s).2.remaining_fraud
        = s.remaining_fraud - min (base.length : Int) s.remaining_fraud ∧
    (simpsonGenerate base ft tp s).2.remaining_causal
        = s.remaining_causal - min (base.length : Int) s.remaining_fraud := by
  have hdf1len : ((base.map (fun r => { r with scenario := "causal_simpson" })).map
      (fun r => { r with amount := round2 (r.amount * regionalMultiplier r.region) })).length = base.length := by
    simp
  obtain ⟨hsellen, hselnd, hselb, hself, hselc⟩ := simpsonSelect_spec
    ((base.map (fun r => { r with scenario := "causal_simpson" })).map
      (fun r => { r with amount := round2 (r.amount * regionalMultiplier r.region) }))
    base.length s hdf1len hf
  have hflags : ((((List.range base.length).map (fun i => decide (i ∈ (simpsonSelect ((base.map (fun r => { r with scenario := "causal_simpson" })).map
      (fun r => { r with amount := round2 (r.amount * regionalMultiplier r.region) }))
      base.length s).1)))).count true : Int)
      = min (base.length : Int) s.remaining_fraud := by
    rw [count_true_flags base.length _ hselnd hselb]
    exact hsellen
  obtain ⟨hm1, hm2⟩ := map_flags_of_labeled
    (fun r => { r with is_casual_fraud := r.is_causal_fraud })
    (by intro r; rfl) (by intro r; rfl)
    ((base.map (fun r => { r with scenario := "causal_simpson" })).map
      (fun r => { r with amount := round2 (r.amount * regionalMultiplier r.region) }))
    ((List.range base.length).map (fun i => decide (i ∈ (simpsonSelect ((base.map (fun r => { r with scenario := "causal_simpson" })).map
      (fun r => { r with amount := round2 (r.amount * regionalMultiplier r.region) }))
      base.length s).1)))
    ((List.range base.length).map (fun i => decide (i ∈ (simpsonSelect ((base.map (fun r => { r with scenario := "causal_simpson" })).map
      (fun r => { r with amount := round2 (r.amount * regionalMultiplier r.region) }))
      base.length s).1)))
    (assignFraudTypes ((List.range base.length).map (fun i => decide (i ∈ (simpsonSelect ((base.map (fun r => { r with scenario := "causal_simpson" })).map
      (fun r => { r with amount := round2 (r.amount * regionalMultiplier r.region) }))
      base.length s).1))) ft tp)
    (by simp) (by simp)
    (by rw [assignFraudTypes_length]; simp)
  have hrepr : (simpsonGenerate base ft tp s).1
      = (List.zipWith (fun r t => { r with fraud_type := t })
          (List.zipWith (fun r f => { r with is_causal_fraud := f })
            (List.zipWith (fun r f => { r with is_fraud := f })
              ((base.map (fun r => { r with scenario := "causal_simpson" })).map
      (fun r => { r with amount := round2 (r.amount * regionalMultiplier r.region) }))
              ((List.range base.length).map (fun i => decide (i ∈ (simpsonSelect ((base.map (fun r => { r with scenario := "causal_simpson" })).map
      (fun r => { r with amount := round2 (r.amount * regionalMultiplier r.region) }))
      base.length s).1))))
            ((List.range base.length).map (fun i => decide (i ∈ (simpsonSelect ((base.map (fun r => { r with scenario := "causal_simpson" })).map
      (fun r => { r with amount := round2 (r.amount * regionalMultiplier r.region) }))
      base.length s).1))))
          (assignFraudTypes ((List.range base.length).map (fun i => decide (i ∈ (simpsonSelect ((base.map (fun r => { r with scenario := "causal_simpson" })).map
      (fun r => { r with amount := round2 (r.amount * regionalMultiplier r.region) }))
      base.length s).1))) ft tp)).map
        (fun r => { r with is_casual_fraud := r.is_causal_fraud }) := by
    simp only [simpsonGenerate]
  refine ⟨?_, ?_, ?_, ?_⟩
  · rw [countFraud_eq_count, hrepr, hm1]
    exact hflags
  · rw [countCausal_eq_count, hrepr, hm2]
    exact hflags
  · exact hself
  · exact hselc

/-- Inputs of one `BaselineFraudScenario.generate` call. -/
structure BaselineCall where
  base : List TxRow
  rsFraud : List Nat
  rsCausal : List Nat
  typePicks : List Nat

/-- Inputs of one `CausalColliderScenario.generate` call. -/
structure ColliderCall where
  base : List TxRow
  noise : List ℚ
  typePicks : List Nat

/-- Inputs of one `CausalSimpsonScenario.generate` call. -/
structure SimpsonCall where
  base : List TxRow
  typePicks : List Nat

/-- A sequence of `generate` calls on one baseline scenario instance,
accumulating the total rows flagged `is_fraud` and `is_causal_fraud`. -/
def baselineRun (ft : List String) :
    List BaselineCall → QuotaState → (Nat × Nat) × QuotaState
  | [], s => ((0, 0), s)
  | c :: cs, s =>
    let out := baselineGenerate c.base c.rsFraud c.rsCausal ft c.typePicks s
    let rest := baselineRun ft cs out.2
    ((countFraud out.1 + rest.1.1, countCausal out.1 + rest.1.2), rest.2)

/-- A sequence of `generate` calls on one collider scenario instance. -/
def colliderRun (ft : List String) :
    List ColliderCall → QuotaState → (Nat × Nat) × QuotaState
  | [], s => ((0, 0), s)
  | c :: cs, s =>
    let out := colliderGenerate c.base c.noise ft c.typePicks s
    let rest := colliderRun ft cs out.2
    ((countFraud out.1 + rest.1.1, countCausal out.1 + rest.1.2), rest.2)

/-- A sequence of `generate` calls on one Simpson scenario instance. -/
def simpsonRun (ft : List String) :
    List SimpsonCall → QuotaState → (Nat × Nat) × QuotaState
  | [], s => ((0, 0), s)
  | c :: cs, s =>
    let out := simpsonGenerate c.base ft c.typePicks s
    let rest := simpsonRun ft cs out.2
    ((countFraud out.1 + rest.1.1, countCausal out.1 + rest.1.2), rest.2)

theorem baselineRun_closed (ft : List String) (calls : List BaselineCall) :
    ∀ f0 c0 : Int, 0 ≤ f0 → 0 ≤ c0 →
      (baselineRun ft calls ⟨f0, c0⟩).2.remaining_fraud
        = max (f0 - ((calls.map (fun c => c.base.length)).sum : Int)) 0 ∧
      (baselineRun ft calls ⟨f0, c0⟩).2.remaining_causal
        = max (c0 - ((calls.map (fun c => c.base.length)).sum : Int)) 0 ∧
      ((baselineRun ft calls ⟨f0, c0⟩).1.1 : Int)
        = min f0 ((calls.map (fun c => c.base.length)).sum : Int) ∧
      ((baselineRun ft calls ⟨f0, c0⟩).1.2 : Int)
        = min c0 ((calls.map (fun c => c.base.length)).sum : Int) := by
  induction calls with
  | nil =>
    intro f0 c0 hf hc
    simp only [baselineRun, List.map_nil, List.sum_nil, Nat.cast_zero, Nat.cast_ofNat]
    refine ⟨by omega, by omega, by omega, by omega⟩
  | cons c cs ih =>
    intro f0 c0 hf hc
    obtain ⟨hcf, hcc, hsf, hsc⟩ :=
      baselineGenerate_call_spec c.base c.rsFraud c.rsCausal ft c.typePicks ⟨f0, c0⟩ hf hc
    have hstate : (baselineGenerate c.base c.rsFraud c.rsCausal ft c.typePicks ⟨f0, c0⟩).2
        = (⟨f0 - min (c.base.length : Int) f0, c0 - min (c.base.length : Int) c0⟩
          : QuotaState) := by
      cases hout : (baselineGenerate c.base c.rsFraud c.rsCausal ft c.typePicks ⟨f0, c0⟩).2
      rw [hout] at hsf hsc
      simp only at hsf hsc
      rw [hsf, hsc]
    obtain ⟨ihf, ihc, ihcf, ihcc⟩ := ih (f0 - min (c.base.length : Int) f0)
      (c0 - min (c.base.length : Int) c0) (by omega) (by omega)
    simp only [baselineRun, hstate, List.map_cons, List.sum_cons]
    refine ⟨?_, ?_, ?_, ?_⟩
    · rw [ihf]
      push_cast
      omega
    · rw [ihc]
      push_cast
      omega
    · push_cast
      rw [hcf, ihcf]
      push_cast
      omega
    · push_cast
      rw [hcc, ihcc]
      push_cast
      omega

theorem colliderRun_closed (ft : List String) (calls : List ColliderCall) :
    ∀ f0 c0 : Int, 0 ≤ f0 →
      (colliderRun ft calls ⟨f0, c0⟩).2.remaining_fraud
        = max (f0 - ((calls.map (fun c => c.base.length)).sum : Int)) 0 ∧
      (colliderRun ft calls ⟨f0, c0⟩).2.remaining_causal
        = c0 - min f0 ((calls.map (fun c => c.base.length)).sum : Int) ∧
      ((colliderRun ft calls ⟨f0, c0⟩).1.1 : Int)
        = min f0 ((calls.map (fun c => c.base.length)).sum : Int) ∧
      (colliderRun ft calls ⟨f0, c0⟩).1.2 = (colliderRun ft calls ⟨f0, c0⟩).1.1 := by
  induction calls with
  | nil =>
    intro f0 c0 hf
    simp only [colliderRun, List.map_nil, List.sum_nil, Nat.cast_zero]
    refine ⟨by omega, by omega, by omega, trivial⟩
  | cons c cs ih =>
    intro f0 c0 hf
    obtain ⟨hcf, hcc, hsf, hsc⟩ :=
      colliderGenerate_call_spec c.base c.noise ft c.typePicks ⟨f0, c0⟩ hf
    have hstate : (colliderGenerate c.base c.noise ft c.typePicks ⟨f0, c0⟩).2
        = (⟨f0 - min (c.base.length : Int) f0, c0 - min (c.base.length : Int) f0⟩
          : QuotaState) := by
      cases hout : (colliderGenerate c.base c.noise ft c.typePicks ⟨f0, c0⟩).2
      rw [hout] at hsf hsc
      simp only at hsf hsc
      rw [hsf, hsc]
    obtain ⟨ihf, ihc, ihcf, ihcc⟩ := ih (f0 - min (c.base.length : Int) f0)
      (c0 - min (c.base.length : Int) f0) (by omega)
    simp only [colliderRun, hstate, List.map_cons, List.sum_cons]
    refine ⟨?_, ?_, ?_, ?_⟩
    · rw [ihf]
      push_cast
      omega
    · rw [ihc]
      push_cast
      omega
    · push_cast
      rw [hcf, ihcf]
      push_cast
      omega
    · have h1 : (countCausal (colliderGenerate c.base c.noise ft c.typePicks ⟨f0, c0⟩).1 : Int)
          = (countFraud (colliderGenerate c.base c.noise ft c.typePicks ⟨f0, c0⟩).1 : Int) := by
        rw [hcf, hcc]
      omega

theorem simpsonRun_closed (ft : List String) (calls : List SimpsonCall) :
    ∀ f0 c0 : Int, 0 ≤ f0 →
      (simpsonRun ft calls ⟨f0, c0⟩).2.remaining_fraud
        = max (f0 - ((calls.map (fun c => c.base.length)).sum : Int)) 0 ∧
      (simpsonRun ft calls ⟨f0, c0⟩).2.remaining_causal
        = c0 - min f0 ((calls.map (fun c => c.base.length)).sum : Int) ∧
      ((simpsonRun ft calls ⟨f0, c0⟩).1.1 : Int)
        = min f0 ((calls.map (fun c => c.base.length)).sum : Int) ∧
      (simpsonRun ft calls ⟨f0, c0⟩).1.2 = (simpsonRun ft calls ⟨f0, c0⟩).1.1 := by
  induction calls with
  | nil =>
    intro f0 c0 hf
    simp only [simpsonRun, List.map_nil, List.sum_nil, Nat.cast_zero]
    refine ⟨by omega, by omega, by omega, trivial⟩
  | cons c cs ih =>
    intro f0 c0 hf
    obtain ⟨hcf, hcc, hsf, hsc⟩ :=
      simpsonGenerate_call_spec c.base ft c.typePicks ⟨f0, c0⟩ hf
    have hstate : (simpsonGenerate c.base ft c.typePicks ⟨f0, c0⟩).2
        = (⟨f0 - min (c.base.length : Int) f0, c0 - min (c.base.length : Int) f0⟩
          : QuotaState) := by
      cases hout : (simpsonGenerate c.base ft c.typePicks ⟨f0, c0⟩).2
      rw [hout] at hsf hsc
      simp only at hsf hsc
      rw [hsf, hsc]
    obtain ⟨ihf, ihc, ihcf, ihcc⟩ := ih (f0 - min (c.base.length : Int) f0)
      (c0 - min (c.base.length : Int) f0) (by omega)
    simp only [simpsonRun, hstate, List.map_cons, List.sum_cons]
    refine ⟨?_, ?_, ?_, ?_⟩
    · rw [ihf]
      push_cast
      omega
    · rw [ihc]
      push_cast
      omega
    · push_cast
      rw [hcf, ihcf]
      push_cast
      omega
    · have h1 : (countCausal (simpsonGenerate c.base ft c.typePicks ⟨f0, c0⟩).1 : Int)
          = (countFraud (simpsonGenerate c.base ft c.typePicks ⟨f0, c0⟩).1 : Int) := by
        rw [hcf, hcc]
      omega

/-- The closed form `max (quota - generated) 0` of a remaining counter is
antitone in the generated-rows total. -/
theorem max_sub_le_max_sub (f a b : Int) (h : a ≤ b) :
    max (f - b) 0 ≤ max (f - a) 0 := by omega

/-- The closed form `quota - min (fraud_quota) generated` of the collider and
Simpson causal counters is antitone in the generated-rows total. -/
theorem sub_min_le_sub_min (c f a b : Int) (h : a ≤ b) :
    c - min f b ≤ c - min f a := by omega

/-- C1 counterexample: with `ScenarioTargets(fraud_rows=1, causal_rows=0)`, a
single `CausalColliderScenario.generate` call on a one-row base flags one row
`is_causal_fraud` — exceeding the causal quota 0 — and drives
`self._remaining_causal` to -1, below zero: the code sets the causal flags
equal to the fraud flags and decrements the causal counter by the fraud take
(`causal_collider.py` lines 40-51), never consulting the causal quota. -/
theorem claim_C1_counterexample :
    (colliderRun ["CARD_NOT_PRESENT"]
        [{ base := [default], noise := [], typePicks := [0] }]
        (QuotaState.ofTargets
          { total_rows := 1, fraud_rows := 1, causal_rows := 0 })).1.2 = 1 ∧
    (colliderRun ["CARD_NOT_PRESENT"]
        [{ base := [default], noise := [], typePicks := [0] }]
        (QuotaState.ofTargets
          { total_rows := 1, fraud_rows := 1, causal_rows := 0 })).2.remaining_causal
      = -1 := by
  have h0 : QuotaState.ofTargets { total_rows := 1, fraud_rows := 1, causal_rows := 0 }
      = (⟨1, 0⟩ : QuotaState) := rfl
  rw [h0]
  obtain ⟨hrf, hrc, hcf, hcc⟩ := colliderRun_closed ["CARD_NOT_PRESENT"]
    [{ base := [default], noise := [], typePicks := [0] }] 1 0 (by decide)
  have hS : ((([({ base := [default], noise := [], typePicks := [0] } : ColliderCall)]).map
      (fun c => c.base.length)).sum : Int) = 1 := by simp
  rw [hS] at hrc hcf
  exact ⟨by omega, by omega⟩

/-- C1 (amended): for every fraud-type list, nonnegative targets and call
sequence, the baseline scenario satisfies the claimed invariants in full:
cumulative `is_fraud` (resp. `is_causal_fraud`) counts never exceed the fraud
(resp. causal) quota, both remaining counters stay within `[0, quota]` and only
decrease from call to call, and each count is exactly its quota once enough
rows have been generated. The collider and Simpson scenarios flag causal rows
and decrement `_remaining_causal` by the FRAUD take, so their invariants hold
only under the additional hypothesis `causal_rows = fraud_rows` (which is how
`TransactionGenerator.run` builds their targets); without it the causal count
can exceed the causal quota and the causal counter can go negative
(`claim_C1_counterexample`). -/
theorem claim_C1_quota_invariants (ft : List String) (t : ScenarioTargets)
    (hf : 0 ≤ t.fraud_rows) (hc : 0 ≤ t.causal_rows) :
    (∀ calls : List BaselineCall,
      ((baselineRun ft calls (QuotaState.ofTargets t)).1.1 : Int) ≤ t.fraud_rows ∧
      ((baselineRun ft calls (QuotaState.ofTargets t)).1.2 : Int) ≤ t.causal_rows ∧
      0 ≤ (baselineRun ft calls (QuotaState.ofTargets t)).2.remaining_fraud ∧
      (baselineRun ft calls (QuotaState.ofTargets t)).2.remaining_fraud ≤ t.fraud_rows ∧
      0 ≤ (baselineRun ft calls (QuotaState.ofTargets t)).2.remaining_causal ∧
      (baselineRun ft calls (QuotaState.ofTargets t)).2.remaining_causal ≤ t.causal_rows ∧
      (∀ k : Nat,
        (baselineRun ft (calls.take (k+1)) (QuotaState.ofTargets t)).2.remaining_fraud
          ≤ (baselineRun ft (calls.take k) (QuotaState.ofTargets t)).2.remaining_fraud ∧
        (baselineRun ft (calls.take (k+1)) (QuotaState.ofTargets t)).2.remaining_causal
          ≤ (baselineRun ft (calls.take k) (QuotaState.ofTargets t)).2.remaining_causal) ∧
      (t.fraud_rows ≤ ((calls.map (fun c => c.base.length)).sum : Int) →
        ((baselineRun ft calls (QuotaState.ofTargets t)).1.1 : Int) = t.fraud_rows) ∧
      (t.causal_rows ≤ ((calls.map (fun c => c.base.length)).sum : Int) →
        ((baselineRun ft calls (QuotaState.ofTargets t)).1.2 : Int) = t.causal_rows)) ∧
    (t.causal_rows = t.fraud_rows →
      (∀ calls : List ColliderCall,
        ((colliderRun ft calls (QuotaState.ofTargets t)).1.1 : Int) ≤ t.fraud_rows ∧
        ((colliderRun ft calls (QuotaState.ofTargets t)).1.2 : Int) ≤ t.causal_rows ∧
        0 ≤ (colliderRun ft calls (QuotaState.ofTargets t)).2.remaining_fraud ∧
        (colliderRun ft calls (QuotaState.ofTargets t)).2.remaining_fraud ≤ t.fraud_rows ∧
        0 ≤ (colliderRun ft calls (QuotaState.ofTargets t)).2.remaining_causal ∧
        (colliderRun ft calls (QuotaState.ofTargets t)).2.remaining_causal ≤ t.causal_rows ∧
        (∀ k : Nat,
          (colliderRun ft (calls.take (k+1)) (QuotaState.ofTargets t)).2.remaining_fraud
            ≤ (colliderRun ft (calls.take k) (QuotaState.ofTargets t)).2.remaining_fraud ∧
          (colliderRun ft (calls.take (k+1)) (QuotaState.ofTargets t)).2.remaining_causal
            ≤ (colliderRun ft (calls.take k) (QuotaState.ofTargets t)).2.remaining_causal) ∧
        (t.fraud_rows ≤ ((calls.map (fun c => c.base.length)).sum : Int) →
          ((colliderRun ft calls (QuotaState.ofTargets t)).1.1 : Int) = t.fraud_rows) ∧
        (t.causal_rows ≤ ((calls.map (fun c => c.base.length)).sum : Int) →
          ((colliderRun ft calls (QuotaState.ofTargets t)).1.2 : Int) = t.causal_rows)) ∧
      (∀ calls : List SimpsonCall,
        ((simpsonRun ft calls (QuotaState.ofTargets t)).1.1 : Int) ≤ t.fraud_rows ∧
        ((simpsonRun ft calls (QuotaState.ofTargets t)).1.2 : Int) ≤ t.causal_rows ∧
        0 ≤ (simpsonRun ft calls (QuotaState.ofTargets t)).2.remaining_fraud ∧
        (simpsonRun ft calls (QuotaState.ofTargets t)).2.remaining_fraud ≤ t.fraud_rows ∧
        0 ≤ (simpsonRun ft calls (QuotaState.ofTargets t)).2.remaining_causal ∧
        (simpsonRun ft calls (QuotaState.ofTargets t)).2.remaining_causal ≤ t.causal_rows ∧
        (∀ k : Nat,
          (simpsonRun ft (calls.take (k+1)) (QuotaState.ofTargets t)).2.remaining_fraud
            ≤ (simpsonRun ft (calls.take k) (QuotaState.ofTargets t)).2.remaining_fraud ∧
          (simpsonRun ft (calls.take (k+1)) (QuotaState.ofTargets t)).2.remaining_causal
            ≤ (simpsonRun ft (calls.take k) (QuotaState.ofTargets t)).2.remaining_causal) ∧
        (t.fraud_rows ≤ ((calls.map (fun c => c.base.length)).sum : Int) →
          ((simpsonRun ft calls (QuotaState.ofTargets t)).1.1 : Int) = t.fraud_rows) ∧
        (t.causal_rows ≤ ((calls.map (fun c => c.base.length)).sum : Int) →
          ((simpsonRun ft calls (QuotaState.ofTargets t)).1.2 : Int) = t.causal_rows))) := by
  have h0 : QuotaState.ofTargets t
      = (⟨t.fraud_rows, t.causal_rows⟩ : QuotaState) := rfl
  rw [h0]
  refine ⟨?_, ?_⟩
  · intro calls
    obtain ⟨hrf, hrc, hcf, hcc⟩ := baselineRun_closed ft calls t.fraud_rows t.causal_rows hf hc
    have hS : (0 : Int) ≤ ((calls.map (fun c => c.base.length)).sum : Int) := by
      apply List.sum_nonneg
      intro x hx
      obtain ⟨c, -, rfl⟩ := List.mem_map.mp hx
      exact_mod_cast Nat.zero_le _
    refine ⟨by omega, by omega, by omega, by omega, by omega, by omega, ?_, by omega, by omega⟩
    intro k
    obtain ⟨hka, hkb, -, -⟩ :=
      baselineRun_closed ft (calls.take k) t.fraud_rows t.causal_rows hf hc
    obtain ⟨hkc, hkd, -, -⟩ :=
      baselineRun_closed ft (calls.take (k+1)) t.fraud_rows t.causal_rows hf hc
    rw [List.map_take] at hka hkb hkc hkd
    have hkopt : (calls.map (fun c => (c.base.length : Int)))[k]?.toList.sum
        = ((calls[k]?.map (fun c => (c.base.length : Int))).toList).sum := by
      rw [List.getElem?_map]
    have hnn : 0 ≤ ((calls[k]?.map (fun c => (c.base.length : Int))).toList).sum := by
      cases calls[k]? <;> simp
    have hmono : (List.take k (calls.map (fun c => (c.base.length : Int)))).sum
        ≤ (List.take (k+1) (calls.map (fun c => (c.base.length : Int)))).sum := by
      rw [List.take_succ, List.sum_append, hkopt]
      omega
    refine ⟨?_, ?_⟩
    · rw [hkc, hka]
      exact max_sub_le_max_sub _ _ _ hmono
    · rw [hkd, hkb]
      exact max_sub_le_max_sub _ _ _ hmono
  · intro hceq
    refine ⟨?_, ?_⟩
    · intro calls
      obtain ⟨hrf, hrc, hcf, hcc⟩ := colliderRun_closed ft calls t.fraud_rows t.causal_rows hf
      have hS : (0 : Int) ≤ ((calls.map (fun c => c.base.length)).sum : Int) := by
        apply List.sum_nonneg
        intro x hx
        obtain ⟨c, -, rfl⟩ := List.mem_map.mp hx
        exact_mod_cast Nat.zero_le _
      refine ⟨by omega, by omega, by omega, by omega, by omega, by omega, ?_, by omega, by omega⟩
      intro k
      obtain ⟨hka, hkb, -, -⟩ :=
        colliderRun_closed ft (calls.take k) t.fraud_rows t.causal_rows hf
      obtain ⟨hkc, hkd, -, -⟩ :=
        colliderRun_closed ft (calls.take (k+1)) t.fraud_rows t.causal_rows hf
      rw [List.map_take] at hka hkb hkc hkd
      have hkopt : (calls.map (fun c => (c.base.length : Int)))[k]?.toList.sum
          = ((calls[k]?.map (fun c => (c.base.length : Int))).toList).sum := by
        rw [List.getElem?_map]
      have hnn : 0 ≤ ((calls[k]?.map (fun c => (c.base.length : Int))).toList).sum := by
        cases calls[k]? <;> simp
      have hmono : (List.take k (calls.map (fun c => (c.base.length : Int)))).sum
          ≤ (List.take (k+1) (calls.map (fun c => (c.base.length : Int)))).sum := by
        rw [List.take_succ, List.sum_append, hkopt]
        omega
      refine ⟨?_, ?_⟩
      · rw [hkc, hka]
        exact max_sub_le_max_sub _ _ _ hmono
      · rw [hkd, hkb]
        exact sub_min_le_sub_min _ _ _ _ hmono
    · intro calls
      obtain ⟨hrf, hrc, hcf, hcc⟩ := simpsonRun_closed ft calls t.fraud_rows t.causal_rows hf
      have hS : (0 : Int) ≤ ((calls.map (fun c => c.base.length)).sum : Int) := by
        apply List.sum_nonneg
        intro x hx
        obtain ⟨c, -, rfl⟩ := List.mem_map.mp hx
        exact_mod_cast Nat.zero_le _
      refine ⟨by omega, by omega, by omega, by omega, by omega, by omega, ?_, by omega, by omega⟩
      intro k
      obtain ⟨hka, hkb, -, -⟩ :=
        simpsonRun_closed ft (calls.take k) t.fraud_rows t.causal_rows hf
      obtain ⟨hkc, hkd, -, -⟩ :=
        simpsonRun_closed ft (calls.take (k+1)) t.fraud_rows t.causal_rows hf
      rw [List.map_take] at hka hkb hkc hkd
      have hkopt : (calls.map (fun c => (c.base.length : Int)))[k]?.toList.sum
          = ((calls[k]?.map (fun c => (c.base.length : Int))).toList).sum := by
        rw [List.getElem?_map]
      have hnn : 0 ≤ ((calls[k]?.map (fun c => (c.base.length : Int))).toList).sum := by
        cases calls[k]? <;> simp
      have hmono : (List.take k (calls.map (fun c => (c.base.length : Int)))).sum
          ≤ (List.take (k+1) (calls.map (fun c => (c.base.length : Int)))).sum := by
        rw [List.take_succ, List.sum_append, hkopt]
        omega
      refine ⟨?_, ?_⟩
      · rw [hkc, hka]
        exact max_sub_le_max_sub _ _ _ hmono
      · rw [hkd, hkb]
        exact sub_min_le_sub_min _ _ _ _ hmono

/-- Concrete instantiation of `claim_C1_quota_invariants` at a three-row target
with matching fraud and causal quotas, one baseline call and one collider
call. -/
theorem claim_C1_quota_invariants_witness :
    (0 ≤ ({ total_rows := 3, fraud_rows := 2, causal_rows := 2 } : ScenarioTargets).fraud_rows ∧
     0 ≤ ({ total_rows := 3, fraud_rows := 2, causal_rows := 2 } : ScenarioTargets).causal_rows ∧
     ({ total_rows := 3, fraud_rows := 2, causal_rows := 2 } : ScenarioTargets).causal_rows
       = ({ total_rows := 3, fraud_rows := 2, causal_rows := 2 } : ScenarioTargets).fraud_rows) ∧
    ((baselineRun ["CARD_NOT_PRESENT"]
        [{ base := [default], rsFraud := [0], rsCausal := [0], typePicks := [0] }]
        (QuotaState.ofTargets
          { total_rows := 3, fraud_rows := 2, causal_rows := 2 })).1.1 : Int)
      ≤ ({ total_rows := 3, fraud_rows := 2, causal_rows := 2 } : ScenarioTargets).fraud_rows ∧
    0 ≤ (colliderRun ["CARD_NOT_PRESENT"]
        [{ base := [default], noise := [], typePicks := [0] }]
        (QuotaState.ofTargets
          { total_rows := 3, fraud_rows := 2, causal_rows := 2 })).2.remaining_causal := by
  refine ⟨⟨by decide, by decide, by decide⟩, ?_, ?_⟩
  · exact ((claim_C1_quota_invariants ["CARD_NOT_PRESENT"]
      { total_rows := 3, fraud_rows := 2, causal_rows := 2 } (by decide) (by decide)).1
      [{ base := [default], rsFraud := [0], rsCausal := [0], typePicks := [0] }]).1
  · exact (((claim_C1_quota_invariants ["CARD_NOT_PRESENT"]
      { total_rows := 3, fraud_rows := 2, causal_rows := 2 } (by decide) (by decide)).2
      (by decide)).1
      [{ base := [default], noise := [], typePicks := [0] }]).2.2.2.2.1

end FraudForge
